import Mathlib

/-!
Shallow embedding of `src/concurrent-queue.ts` (class `ConcurrentQueue`).

The queue is driven by a single-threaded event loop: every entry point
(`process`, `abortJob`, `abort`/shutdown, a `setTimeout` deadline firing, an
external `AbortSignal` firing, the executor's promise settling) runs its
bookkeeping synchronously and atomically.  We model the queue as a state
record and each entry point as a total function on states; an execution is a
list of such events folded over the initial state.

Job ids are `Date.now()-random` strings in the source, used only as unique
keys; we abstract them as a `Nat` counter (`nextId`), so the numeric order of
ids coincides with submission order, which serves as the ghost submission
index for the FIFO statements.

Per-job closure state of `process` (the `status` variable, the `jobAbort`
controller, the armed timer, the registered listeners) is carried in a `Job`
record; the `cleanup` closure is `cleanupJob`.  The successive
`AbortController`s installed in `this.queueAbort` are numbered by a
`generation` counter: a job's shutdown-signal listener remembers on which
generation it was registered (`queueAbortGen`).

Two ghost fields record scheduling history that the source only logs:
`started`/`startedOrder` (the job was handed to `executeJob`, i.e. the
`Job started` log line) and `executorSettled` (the executor's promise has
settled, i.e. the `.finally` callback ran).
-/

namespace MdkFlow

/-- Reason passed to the `job-cancelled` event: `'abort' | 'timeout'`. -/
inductive CancelReason
  | abort
  | timeout
deriving DecidableEq, Repr

/-- The string the source puts into `new Error(reason)`. -/
def CancelReason.str : CancelReason → String
  | .abort => "abort"
  | .timeout => "timeout"

/-- A JavaScript `Error` value, reduced to its message. -/
structure JSError where
  msg : String
deriving DecidableEq, Repr

/-- A JavaScript value thrown by the executor: either already an `Error`
or some other value, kept as its `String(err)` rendering. -/
inductive JSVal
  | jsError (e : JSError)
  | jsOther (s : String)
deriving DecidableEq, Repr

/-- The wrapping in `ConcurrentQueueItem.reject`:
`err instanceof Error ? err : new Error(String(err))`. -/
def wrapError : JSVal → JSError
  | .jsError e => e
  | .jsOther s => JSError.mk s

/-- `ConcurrentJobQueueStatus`: the per-job closure variable `status`. -/
inductive JobStatus
  | pending
  | processed
  | aborted
deriving DecidableEq, Repr

/-- Settlement state of the promise `process` returns to the submitter. -/
inductive Outcome (O : Type)
  | unsettled
  | resolved (out : O)
  | rejected (e : JSError)
deriving DecidableEq, Repr

/-- The status argument of the `job-processed` event. -/
inductive ProcStatus (O : Type)
  | ok (out : O)
  | failed (e : JSError)
deriving DecidableEq, Repr

/-- Events of `ConcurrentQueueEvents`, with the `totalJobs` argument
(`this.queue.length` at emission time). -/
inductive QEvent (I O : Type)
  | jobAdded (job : Nat × I) (totalJobs : Nat)
  | jobProcessed (job : Nat × I) (status : ProcStatus O) (totalJobs : Nat)
  | jobCancelled (job : Nat × I) (reason : CancelReason) (totalJobs : Nat)
  | abortJobEvt (jobId : Nat)
deriving DecidableEq, Repr

/-- One job: the `ConcurrentQueueItem` together with the closure state of its
`process` invocation. -/
structure Job (I O : Type) where
  id : Nat
  data : I
  /-- closure variable `status` -/
  status : JobStatus
  /-- `jobAbort.signal.aborted` -/
  jobAborted : Bool
  /-- a `setTimeout` deadline is armed and not yet cleared -/
  timer : Bool
  /-- the `queueTimeout` argument of `process` (seconds), kept for specification -/
  timeoutSeconds : Int
  /-- the `handleAbortEvent` listener is registered on the `abort-job` event -/
  abortJobListener : Bool
  /-- generation of the `queueAbort` controller this job's `abort` listener is on -/
  queueAbortGen : Option Nat
  /-- a caller-supplied external signal was given and its listener is attached -/
  externalListener : Bool
  /-- `this.jobStatus[id]`: `none` once deleted, else the has-started flag -/
  jobIndex : Option Bool
  /-- settlement state of the promise returned to the submitter -/
  outcome : Outcome O
  /-- ghost: `executeJob` was invoked for this job (`Job started`) -/
  started : Bool
  /-- ghost: the executor's promise has settled (the `.finally` ran) -/
  executorSettled : Bool
deriving DecidableEq, Repr

/-- The `ConcurrentQueue` instance state. -/
structure QueueState (I O : Type) where
  name : String
  /-- `this.concurrency`, fixed at construction -/
  concurrency : Nat
  /-- `this.queue`, as the list of ids of its items (ids are unique keys) -/
  queue : List Nat
  /-- `this.processingJobs` (a JS number: modelled as `Int`, not `Nat`) -/
  processingJobs : Int
  /-- generation counter naming the current `this.queueAbort` controller -/
  generation : Nat
  /-- every job ever created by `process` (closures live as long as referenced) -/
  jobs : List (Job I O)
  /-- id counter abstracting the unique id generator `nextId` -/
  nextId : Nat
  /-- trace of emitted events, oldest first -/
  events : List (QEvent I O)
  /-- ghost: ids in the order `executeJob` was invoked for them -/
  startedOrder : List Nat
deriving DecidableEq, Repr

variable {I O : Type}

/-- Look a job up by id (ids are unique keys). -/
def findJob (s : QueueState I O) (id : Nat) : Option (Job I O) :=
  s.jobs.find? (fun j => j.id = id)

/-- Rewrite the job with the given id in place. -/
def updateJob (s : QueueState I O) (id : Nat) (g : Job I O → Job I O) :
    QueueState I O :=
  { s with jobs := s.jobs.map (fun j => if j.id = id then g j else j) }

/-- Append an event to the trace (`this.events.emit(...)`). -/
def emit (s : QueueState I O) (e : QEvent I O) : QueueState I O :=
  { s with events := s.events ++ [e] }

/-- The per-job `cleanup` closure: deletes `jobStatus[id]`, detaches the
`abort-job` listener, removes the listener from the current `queueAbort`
signal (a no-op if it was registered on an older controller), detaches the
external-signal listener and clears the deadline timer. -/
def cleanupJob (gen : Nat) (j : Job I O) : Job I O :=
  { j with
    jobIndex := none
    abortJobListener := false
    queueAbortGen := if j.queueAbortGen = some gen then none else j.queueAbortGen
    externalListener := false
    timer := false }

/-- The job rewrite `onTimeoutOrAbort` performs on a still-pending job:
terminal state `aborted`, cleanup, rejected outcome, and `jobAbort` fired. -/
def cancelUpdate (gen : Nat) (reason : CancelReason) (j : Job I O) : Job I O :=
  { cleanupJob gen j with
    status := JobStatus.aborted
    outcome := Outcome.rejected (JSError.mk reason.str)
    jobAborted := true }

/-- The job rewrite `resolve` performs on a still-pending job. -/
def resolveUpdate (gen : Nat) (o : O) (j : Job I O) : Job I O :=
  { cleanupJob gen j with
    status := JobStatus.processed
    outcome := Outcome.resolved o }

/-- The job rewrite `reject` performs on a still-pending job. -/
def rejectUpdate (gen : Nat) (e : JSError) (j : Job I O) : Job I O :=
  { cleanupJob gen j with
    status := JobStatus.processed
    outcome := Outcome.rejected e }

/-- `jobAbort.abort()` marks the signal aborted. -/
def markAborted (j : Job I O) : Job I O := { j with jobAborted := true }

/-- The `.finally` of the executor promise has run (ghost bookkeeping). -/
def markExecutorSettled (j : Job I O) : Job I O := { j with executorSettled := true }

/-- `executeJob`'s bookkeeping on the job: `jobStatus[id] = true` plus the
ghost start mark. -/
def startUpdate (j : Job I O) : Job I O :=
  { j with jobIndex := some true, started := true }

/-- The per-job `onTimeoutOrAbort` closure.  If the job is no longer
`pending` it only logs.  Otherwise it marks the job `aborted`, runs
`cleanup`, rejects the submitter's promise with `new Error(reason)` where
`reason` is `'abort'` when `jobAbort` already fired and `'timeout'` when the
deadline timer called directly, emits `job-cancelled`, and finally aborts
`jobAbort` itself if it had not fired (that nested dispatch re-enters
`onTimeoutOrAbort`, which then returns at the `status !== 'pending'` guard,
so its only effect is `jobAbort.signal.aborted = true`). -/
def onTimeoutOrAbort (s : QueueState I O) (id : Nat) : QueueState I O :=
  match findJob s id with
  | none => s
  | some j =>
    if j.status ≠ JobStatus.pending then s
    else
      let reason : CancelReason :=
        if j.jobAborted then CancelReason.abort else CancelReason.timeout
      let s1 := updateJob s id (cancelUpdate s.generation reason)
      emit s1 (QEvent.jobCancelled (id, j.data) reason s.queue.length)

/-- The bound `abort` function `jobAbort.abort.bind(jobAbort)`: aborting an
already-aborted controller is a no-op; otherwise the signal becomes aborted
and its `abort` listener `onTimeoutOrAbort` fires. -/
def fireJobAbort (s : QueueState I O) (id : Nat) : QueueState I O :=
  match findJob s id with
  | none => s
  | some j =>
    if j.jobAborted then s
    else onTimeoutOrAbort (updateJob s id markAborted) id

/-- `abortJob(id)`: emits the `abort-job` event; the only registered
`handleAbortEvent` whose captured id matches is the job's own (ids are
unique), and it calls the job's `abort`. -/
def abortJobOp (s : QueueState I O) (id : Nat) : QueueState I O :=
  let s1 := emit s (QEvent.abortJobEvt id)
  match findJob s1 id with
  | none => s1
  | some j => if j.abortJobListener then fireJobAbort s1 id else s1

/-- A job's armed deadline timer fires: `setTimeout(onTimeoutOrAbort, ...)`.
If `cleanup` already cleared the timer, it never fires. -/
def fireTimeoutOp (s : QueueState I O) (id : Nat) : QueueState I O :=
  match findJob s id with
  | none => s
  | some j => if j.timer then onTimeoutOrAbort s id else s

/-- The caller-supplied external signal aborts: its `abort` listener (the
job's `abort`) fires, unless `cleanup` already removed it. -/
def fireExternalOp (s : QueueState I O) (id : Nat) : QueueState I O :=
  match findJob s id with
  | none => s
  | some j => if j.externalListener then fireJobAbort s id else s

/-- `ConcurrentQueueItem.resolve`: a no-op once the job is no longer
`pending`; otherwise marks it `processed`, runs `cleanup`, resolves the
submitter's promise and emits `job-processed` with a success status. -/
def jobResolve (s : QueueState I O) (id : Nat) (output : O) : QueueState I O :=
  match findJob s id with
  | none => s
  | some j =>
    if j.status ≠ JobStatus.pending then s
    else
      let s1 := updateJob s id (resolveUpdate s.generation output)
      emit s1 (QEvent.jobProcessed (id, j.data) (ProcStatus.ok output) s.queue.length)

/-- `ConcurrentQueueItem.reject`: a no-op once the job is no longer
`pending`; otherwise wraps the thrown value into an `Error` if needed, marks
the job `processed`, runs `cleanup`, rejects the submitter's promise with the
error and emits `job-processed` with that error. -/
def jobReject (s : QueueState I O) (id : Nat) (err : JSVal) : QueueState I O :=
  match findJob s id with
  | none => s
  | some j =>
    if j.status ≠ JobStatus.pending then s
    else
      let error := wrapError err
      let s1 := updateJob s id (rejectUpdate s.generation error)
      emit s1 (QEvent.jobProcessed (id, j.data) (ProcStatus.failed error) s.queue.length)

/-- The synchronous part of `executeJob` together with the `processingJobs++`
of `run`: count the slot, set `jobStatus[id] = true`, record the start
(the `Job started` log), and invoke the executor (whose settlement arrives
later as a separate event). -/
def startJob (s : QueueState I O) (id : Nat) : QueueState I O :=
  { updateJob s id startUpdate with
    processingJobs := s.processingJobs + 1
    startedOrder := s.startedOrder ++ [id] }

/-- The admission loop `run`: while a slot is free, shift the backlog head;
stop when the backlog is empty; discard the item without consuming a slot if
`job.aborted()`; otherwise take a slot and start the job.  (The `findJob`
miss case cannot arise: backlog entries are items of `this.queue`.)

Every iteration shifts one backlog entry and nothing re-enters the backlog,
so the loop runs at most `s.queue.length` times; `runAux` makes that bound
the structural recursion fuel. -/
def runAux : Nat → QueueState I O → QueueState I O
  | 0, s => s
  | fuel + 1, s =>
    if s.processingJobs < (s.concurrency : Int) then
      match s.queue with
      | [] => s
      | id :: rest =>
        match findJob s id with
        | none => runAux fuel { s with queue := rest }
        | some j =>
          if j.status = JobStatus.aborted then runAux fuel { s with queue := rest }
          else runAux fuel (startJob { s with queue := rest } id)
    else s

/-- The admission loop of the source, with the fuel instantiated. -/
def run (s : QueueState I O) : QueueState I O :=
  runAux s.queue.length s

/-- `process(data, queueTimeout, signal?)`: allocate a fresh id, register the
three cancellation listeners, arm the deadline timer iff `queueTimeout > 0`,
push the item, set `jobStatus[id] = false`, emit `job-added` with the new
backlog length, and run the admission loop.  Whether a caller supplied an
external signal is the `hasSignal` flag. -/
def newJob (s : QueueState I O) (data : I) (queueTimeout : Int)
    (hasSignal : Bool) : Job I O :=
  { id := s.nextId
    data := data
    status := JobStatus.pending
    jobAborted := false
    timer := decide (queueTimeout > 0)
    timeoutSeconds := queueTimeout
    abortJobListener := true
    queueAbortGen := some s.generation
    externalListener := hasSignal
    jobIndex := some false
    outcome := Outcome.unsettled
    started := false
    executorSettled := false }

def process (s : QueueState I O) (data : I) (queueTimeout : Int)
    (hasSignal : Bool) : QueueState I O :=
  let id := s.nextId
  let job : Job I O := newJob s data queueTimeout hasSignal
  let s1 : QueueState I O :=
    { s with jobs := s.jobs ++ [job], queue := s.queue ++ [id], nextId := id + 1 }
  let s2 := emit s1 (QEvent.jobAdded (id, data) s1.queue.length)
  run s2

/-- `abort()` (shutdown): abort the current `queueAbort` controller — its
signal fires the `abort` listener of every job still attached to this
generation, in registration (= submission) order — then install a fresh
controller (`generation + 1`). -/
def shutdownOp (s : QueueState I O) : QueueState I O :=
  let ids := (s.jobs.filter (fun j => j.queueAbortGen = some s.generation)).map Job.id
  let s1 := ids.foldl fireJobAbort s
  { s1 with generation := s1.generation + 1 }

/-- The executor's promise settles:
`.then(job.resolve).catch(job.reject).finally(resolve)` followed by
`.then(() => { this.processingJobs--; this.run(); })`.  Only a started job's
executor can settle, and it settles exactly once. -/
def settleExec (s : QueueState I O) (id : Nat) (res : Except JSVal O) :
    QueueState I O :=
  match findJob s id with
  | none => s
  | some j =>
    if j.started && !j.executorSettled then
      let s1 := match res with
        | Except.ok o => jobResolve s id o
        | Except.error e => jobReject s id e
      let s2 := updateJob s1 id markExecutorSettled
      run { s2 with processingJobs := s2.processingJobs - 1 }
    else s

/-- A freshly constructed `ConcurrentQueue`. -/
def initQueue (name : String) (concurrency : Nat) : QueueState I O :=
  { name := name
    concurrency := concurrency
    queue := []
    processingJobs := 0
    generation := 0
    jobs := []
    nextId := 0
    events := []
    startedOrder := [] }

/-- The externally triggerable events of the queue's event loop. -/
inductive QStep (I O : Type)
  | processStep (data : I) (queueTimeout : Int) (hasSignal : Bool)
  | abortJobStep (id : Nat)
  | shutdownStep
  | timeoutStep (id : Nat)
  | externalStep (id : Nat)
  | settleStep (id : Nat) (res : Except JSVal O)

/-- Dispatch one event. -/
def step (s : QueueState I O) : QStep I O → QueueState I O
  | .processStep d t sig => process s d t sig
  | .abortJobStep id => abortJobOp s id
  | .shutdownStep => shutdownOp s
  | .timeoutStep id => fireTimeoutOp s id
  | .externalStep id => fireExternalOp s id
  | .settleStep id res => settleExec s id res

/-- Fold a sequence of events over a state. -/
def runSteps (s : QueueState I O) (l : List (QStep I O)) : QueueState I O :=
  l.foldl step s

/-! ### Unfolding equations for the admission loop -/

theorem run_eq_stop (s : QueueState I O)
    (h : ¬ s.processingJobs < (s.concurrency : Int)) : run s = s := by
  show runAux s.queue.length s = s
  cases hl : s.queue.length with
  | zero => rfl
  | succ n => rw [runAux, if_neg h]

theorem run_eq_nil (s : QueueState I O) (hq : s.queue = []) : run s = s := by
  show runAux s.queue.length s = s
  rw [hq]
  rfl

theorem run_eq_cons (s : QueueState I O)
    (h : s.processingJobs < (s.concurrency : Int)) (id : Nat) (rest : List Nat)
    (hq : s.queue = id :: rest) :
    run s =
      match findJob s id with
      | none => run { s with queue := rest }
      | some j =>
        if j.status = JobStatus.aborted then run { s with queue := rest }
        else run (startJob { s with queue := rest } id) := by
  show runAux s.queue.length s = _
  rw [hq, List.length_cons, runAux, if_pos h]
  simp only [hq]
  rfl

theorem run_eq_skip (s : QueueState I O)
    (h : s.processingJobs < (s.concurrency : Int)) (id : Nat) (rest : List Nat)
    (hq : s.queue = id :: rest) (j : Job I O)
    (hfind : findJob s id = some j)
    (hab : j.status = JobStatus.aborted) :
    run s = run { s with queue := rest } := by
  rw [run_eq_cons s h id rest hq, hfind]
  simp [hab]

theorem run_eq_start (s : QueueState I O)
    (h : s.processingJobs < (s.concurrency : Int)) (id : Nat) (rest : List Nat)
    (hq : s.queue = id :: rest) (j : Job I O)
    (hfind : findJob s id = some j)
    (hab : ¬ j.status = JobStatus.aborted) :
    run s = run (startJob { s with queue := rest } id) := by
  rw [run_eq_cons s h id rest hq, hfind]
  simp [hab]

/-- Recursion principle following the iterations of the admission loop. -/
theorem run_rec (motive : QueueState I O → Prop)
    (case1 : ∀ s : QueueState I O,
      s.processingJobs < (s.concurrency : Int) → s.queue = [] → motive s)
    (case2 : ∀ s : QueueState I O, s.processingJobs < (s.concurrency : Int) →
      ∀ (id : Nat) (rest : List Nat), s.queue = id :: rest → findJob s id = none →
        motive { s with queue := rest } → motive s)
    (case3 : ∀ s : QueueState I O, s.processingJobs < (s.concurrency : Int) →
      ∀ (id : Nat) (rest : List Nat), s.queue = id :: rest →
        ∀ j : Job I O, findJob s id = some j → j.status = JobStatus.aborted →
          motive { s with queue := rest } → motive s)
    (case4 : ∀ s : QueueState I O, s.processingJobs < (s.concurrency : Int) →
      ∀ (id : Nat) (rest : List Nat), s.queue = id :: rest →
        ∀ j : Job I O, findJob s id = some j → ¬ j.status = JobStatus.aborted →
          motive (startJob ({ s with queue := rest } : QueueState I O) id) → motive s)
    (case5 : ∀ s : QueueState I O,
      ¬ s.processingJobs < (s.concurrency : Int) → motive s) :
    ∀ s : QueueState I O, motive s := by
  have H : ∀ (n : Nat) (s : QueueState I O), s.queue.length ≤ n → motive s := by
    intro n
    induction n with
    | zero =>
      intro s hs
      by_cases hlt : s.processingJobs < (s.concurrency : Int)
      · exact case1 s hlt (List.length_eq_zero.mp (Nat.le_zero.mp hs))
      · exact case5 s hlt
    | succ n ih =>
      intro s hs
      by_cases hlt : s.processingJobs < (s.concurrency : Int)
      · cases hq : s.queue with
        | nil => exact case1 s hlt hq
        | cons id rest =>
          have hrest : rest.length ≤ n := by
            rw [hq] at hs
            rw [List.length_cons] at hs
            omega
          cases hfind : findJob s id with
          | none => exact case2 s hlt id rest hq hfind (ih _ hrest)
          | some j =>
            by_cases hab : j.status = JobStatus.aborted
            · exact case3 s hlt id rest hq j hfind hab (ih _ hrest)
            · exact case4 s hlt id rest hq j hfind hab (ih _ hrest)
      · exact case5 s hlt
  exact fun s => H s.queue.length s (Nat.le_refl _)

/-! ### Unfolding equations for the entry points -/

theorem findJob_emit (s : QueueState I O) (e : QEvent I O) (id : Nat) :
    findJob (emit s e) id = findJob s id := rfl

theorem onTimeoutOrAbort_eq_none {s : QueueState I O} {id : Nat}
    (hfind : findJob s id = none) : onTimeoutOrAbort s id = s := by
  simp [onTimeoutOrAbort, hfind]

theorem onTimeoutOrAbort_eq_terminal {s : QueueState I O} {id : Nat} {j : Job I O}
    (hfind : findJob s id = some j) (hp : j.status ≠ JobStatus.pending) :
    onTimeoutOrAbort s id = s := by
  simp [onTimeoutOrAbort, hfind, hp]

theorem onTimeoutOrAbort_eq_pending {s : QueueState I O} {id : Nat} {j : Job I O}
    (hfind : findJob s id = some j) (hp : j.status = JobStatus.pending) :
    onTimeoutOrAbort s id =
      emit (updateJob s id (cancelUpdate s.generation
          (if j.jobAborted then CancelReason.abort else CancelReason.timeout)))
        (QEvent.jobCancelled (id, j.data)
          (if j.jobAborted then CancelReason.abort else CancelReason.timeout)
          s.queue.length) := by
  simp [onTimeoutOrAbort, hfind, hp]

theorem fireJobAbort_eq_none {s : QueueState I O} {id : Nat}
    (hfind : findJob s id = none) : fireJobAbort s id = s := by
  simp [fireJobAbort, hfind]

theorem fireJobAbort_eq_already {s : QueueState I O} {id : Nat} {j : Job I O}
    (hfind : findJob s id = some j) (hab : j.jobAborted = true) :
    fireJobAbort s id = s := by
  simp [fireJobAbort, hfind, hab]

theorem fireJobAbort_eq_fire {s : QueueState I O} {id : Nat} {j : Job I O}
    (hfind : findJob s id = some j) (hab : j.jobAborted = false) :
    fireJobAbort s id
      = onTimeoutOrAbort (updateJob s id markAborted) id := by
  simp [fireJobAbort, hfind, hab]

theorem abortJobOp_eq_none {s : QueueState I O} {id : Nat}
    (hfind : findJob s id = none) :
    abortJobOp s id = emit s (QEvent.abortJobEvt id) := by
  simp [abortJobOp, findJob_emit, hfind]

theorem abortJobOp_eq_noListener {s : QueueState I O} {id : Nat} {j : Job I O}
    (hfind : findJob s id = some j) (hl : j.abortJobListener = false) :
    abortJobOp s id = emit s (QEvent.abortJobEvt id) := by
  simp [abortJobOp, findJob_emit, hfind, hl]

theorem abortJobOp_eq_listener {s : QueueState I O} {id : Nat} {j : Job I O}
    (hfind : findJob s id = some j) (hl : j.abortJobListener = true) :
    abortJobOp s id = fireJobAbort (emit s (QEvent.abortJobEvt id)) id := by
  simp [abortJobOp, findJob_emit, hfind, hl]

theorem fireTimeoutOp_eq_none {s : QueueState I O} {id : Nat}
    (hfind : findJob s id = none) : fireTimeoutOp s id = s := by
  simp [fireTimeoutOp, hfind]

theorem fireTimeoutOp_eq_noTimer {s : QueueState I O} {id : Nat} {j : Job I O}
    (hfind : findJob s id = some j) (ht : j.timer = false) :
    fireTimeoutOp s id = s := by
  simp [fireTimeoutOp, hfind, ht]

theorem fireTimeoutOp_eq_armed {s : QueueState I O} {id : Nat} {j : Job I O}
    (hfind : findJob s id = some j) (ht : j.timer = true) :
    fireTimeoutOp s id = onTimeoutOrAbort s id := by
  simp [fireTimeoutOp, hfind, ht]

theorem fireExternalOp_eq_none {s : QueueState I O} {id : Nat}
    (hfind : findJob s id = none) : fireExternalOp s id = s := by
  simp [fireExternalOp, hfind]

theorem fireExternalOp_eq_noListener {s : QueueState I O} {id : Nat} {j : Job I O}
    (hfind : findJob s id = some j) (hl : j.externalListener = false) :
    fireExternalOp s id = s := by
  simp [fireExternalOp, hfind, hl]

theorem fireExternalOp_eq_listener {s : QueueState I O} {id : Nat} {j : Job I O}
    (hfind : findJob s id = some j) (hl : j.externalListener = true) :
    fireExternalOp s id = fireJobAbort s id := by
  simp [fireExternalOp, hfind, hl]

theorem jobResolve_eq_none {s : QueueState I O} {id : Nat} {o : O}
    (hfind : findJob s id = none) : jobResolve s id o = s := by
  simp [jobResolve, hfind]

theorem jobResolve_eq_terminal {s : QueueState I O} {id : Nat} {j : Job I O} {o : O}
    (hfind : findJob s id = some j) (hp : j.status ≠ JobStatus.pending) :
    jobResolve s id o = s := by
  simp [jobResolve, hfind, hp]

theorem jobResolve_eq_pending {s : QueueState I O} {id : Nat} {j : Job I O} {o : O}
    (hfind : findJob s id = some j) (hp : j.status = JobStatus.pending) :
    jobResolve s id o =
      emit (updateJob s id (resolveUpdate s.generation o))
        (QEvent.jobProcessed (id, j.data) (ProcStatus.ok o) s.queue.length) := by
  simp [jobResolve, hfind, hp]

theorem jobReject_eq_none {s : QueueState I O} {id : Nat} {err : JSVal}
    (hfind : findJob s id = none) : jobReject s id err = s := by
  simp [jobReject, hfind]

theorem jobReject_eq_terminal {s : QueueState I O} {id : Nat} {j : Job I O} {err : JSVal}
    (hfind : findJob s id = some j) (hp : j.status ≠ JobStatus.pending) :
    jobReject s id err = s := by
  simp [jobReject, hfind, hp]

theorem jobReject_eq_pending {s : QueueState I O} {id : Nat} {j : Job I O} {err : JSVal}
    (hfind : findJob s id = some j) (hp : j.status = JobStatus.pending) :
    jobReject s id err =
      emit (updateJob s id (rejectUpdate s.generation (wrapError err)))
        (QEvent.jobProcessed (id, j.data) (ProcStatus.failed (wrapError err))
          s.queue.length) := by
  simp [jobReject, hfind, hp]

theorem settleExec_eq_none {s : QueueState I O} {id : Nat} {res : Except JSVal O}
    (hfind : findJob s id = none) : settleExec s id res = s := by
  simp [settleExec, hfind]

theorem settleExec_eq_notRunning {s : QueueState I O} {id : Nat} {j : Job I O}
    {res : Except JSVal O} (hfind : findJob s id = some j)
    (h : (j.started && !j.executorSettled) = false) : settleExec s id res = s := by
  simp [settleExec, hfind, h]

theorem settleExec_ok_eq {s : QueueState I O} {id : Nat} {j : Job I O} {o : O}
    (hfind : findJob s id = some j)
    (h : (j.started && !j.executorSettled) = true) :
    settleExec s id (Except.ok o)
      = run { updateJob (jobResolve s id o) id markExecutorSettled with
          processingJobs := (jobResolve s id o).processingJobs - 1 } := by
  simp only [settleExec, hfind, h]
  rfl

theorem settleExec_error_eq {s : QueueState I O} {id : Nat} {j : Job I O} {e : JSVal}
    (hfind : findJob s id = some j)
    (h : (j.started && !j.executorSettled) = true) :
    settleExec s id (Except.error e)
      = run { updateJob (jobReject s id e) id markExecutorSettled with
          processingJobs := (jobReject s id e).processingJobs - 1 } := by
  simp only [settleExec, hfind, h]
  rfl

theorem process_eq (s : QueueState I O) (data : I) (queueTimeout : Int)
    (hasSignal : Bool) :
    process s data queueTimeout hasSignal
      = run (emit
          { s with
            jobs := s.jobs ++ [newJob s data queueTimeout hasSignal]
            queue := s.queue ++ [s.nextId]
            nextId := s.nextId + 1 }
          (QEvent.jobAdded (s.nextId, data) (s.queue ++ [s.nextId]).length)) := rfl

/-! ### Generic list bookkeeping lemmas -/

/-- With id-unique jobs, two jobs sharing an id are the same record. -/
theorem jobs_id_unique {l : List (Job I O)} (hnd : (l.map Job.id).Nodup)
    {j j' : Job I O} (hj : j ∈ l) (hj' : j' ∈ l) (h : j.id = j'.id) : j = j' :=
  List.inj_on_of_nodup_map hnd hj hj' h

/-- `findJob` hits exactly the jobs whose id is present. -/
theorem findJob_eq_some_iff {s : QueueState I O} {id : Nat} :
    (∃ j, findJob s id = some j) ↔ ∃ j ∈ s.jobs, j.id = id := by
  constructor
  · rintro ⟨j, hj⟩
    exact ⟨j, List.mem_of_find?_eq_some hj, by simpa using List.find?_some hj⟩
  · rintro ⟨j, hj, hid⟩
    have : (s.jobs.find? (fun j' => j'.id = id)).isSome = true :=
      List.find?_isSome.mpr ⟨j, hj, by simp [hid]⟩
    rcases Option.isSome_iff_exists.mp this with ⟨j', hj'⟩
    exact ⟨j', hj'⟩

theorem findJob_mem {s : QueueState I O} {id : Nat} {j : Job I O}
    (h : findJob s id = some j) : j ∈ s.jobs :=
  List.mem_of_find?_eq_some h

theorem findJob_id {s : QueueState I O} {id : Nat} {j : Job I O}
    (h : findJob s id = some j) : j.id = id := by
  simpa using List.find?_some h

/-- Rewriting one job rewrites `findJob` pointwise, provided ids are kept. -/
theorem findJob_updateJob (s : QueueState I O) (id id' : Nat)
    (g : Job I O → Job I O) (hg : ∀ j, (g j).id = j.id) :
    findJob (updateJob s id' g) id
      = (findJob s id).map (fun j => if j.id = id' then g j else j) := by
  unfold findJob updateJob
  rw [List.find?_map]
  have hp : ((fun j : Job I O => decide (j.id = id)) ∘ fun j => if j.id = id' then g j else j)
      = fun j : Job I O => decide (j.id = id) := by
    funext j
    by_cases h : j.id = id' <;> simp [h, hg]
  rw [hp]

/-- A per-id rewrite that does not change the measured fields leaves any
job-list projection unchanged. -/
theorem updateJob_jobs_map {β : Type} (s : QueueState I O) (id : Nat)
    (g : Job I O → Job I O) (f : Job I O → β) (hf : ∀ j, f (g j) = f j) :
    (updateJob s id g).jobs.map f = s.jobs.map f := by
  unfold updateJob
  simp only [List.map_map]
  apply List.map_congr_left
  intro j _
  by_cases h : j.id = id <;> simp [h, hf]

/-- A per-id rewrite preserving the counted predicate pointwise preserves
the count. -/
theorem countP_update_congr (l : List (Job I O)) (id : Nat)
    (g : Job I O → Job I O) (p : Job I O → Bool) (hpg : ∀ j, p (g j) = p j) :
    (l.map (fun j => if j.id = id then g j else j)).countP p = l.countP p := by
  rw [List.countP_map]
  apply List.countP_congr
  intro j _
  by_cases h : j.id = id <;> simp [h, hpg]

/-- Flipping the counted predicate from false to true at the unique job with
the given id raises the count by one. -/
theorem countP_update_up (l : List (Job I O)) (id : Nat)
    (g : Job I O → Job I O) (p : Job I O → Bool)
    (hnd : (l.map Job.id).Nodup) (j0 : Job I O) (hmem : j0 ∈ l)
    (hid : j0.id = id) (h0 : p j0 = false) (h1 : p (g j0) = true) :
    (l.map (fun j => if j.id = id then g j else j)).countP p = l.countP p + 1 := by
  induction l with
  | nil => cases hmem
  | cons a t ih =>
    rw [List.map_cons] at hnd
    rw [List.nodup_cons] at hnd
    by_cases ha : a.id = id
    · have haj : a = j0 := by
        rcases List.mem_cons.mp hmem with h | h
        · exact h.symm
        · have hmm : j0.id ∈ t.map Job.id := List.mem_map_of_mem Job.id h
          rw [hid, ← ha] at hmm
          exact absurd hmm hnd.1
      subst haj
      have ht : t.map (fun j => if j.id = id then g j else j) = t := by
        have h' : ∀ j ∈ t, (if j.id = id then g j else j) = j := by
          intro j hj
          have hne : j.id ≠ id := by
            intro hc
            have hmm : j.id ∈ t.map Job.id := List.mem_map_of_mem Job.id hj
            rw [hc, ← ha] at hmm
            exact hnd.1 hmm
          simp [hne]
        calc t.map (fun j => if j.id = id then g j else j) = t.map (fun j => j) :=
              List.map_congr_left h'
          _ = t := List.map_id' t
      simp [ha, ht, List.countP_cons, h0, h1]
    · have hmt : j0 ∈ t := by
        rcases List.mem_cons.mp hmem with h | h
        · exact absurd (h ▸ hid) ha
        · exact h
      simp only [List.map_cons, if_neg ha, List.countP_cons]
      rw [ih hnd.2 hmt]
      omega

/-- Flipping the counted predicate from true to false at the unique job with
the given id lowers the count by one. -/
theorem countP_update_down (l : List (Job I O)) (id : Nat)
    (g : Job I O → Job I O) (p : Job I O → Bool)
    (hnd : (l.map Job.id).Nodup) (j0 : Job I O) (hmem : j0 ∈ l)
    (hid : j0.id = id) (h0 : p j0 = true) (h1 : p (g j0) = false) :
    l.countP p = (l.map (fun j => if j.id = id then g j else j)).countP p + 1 := by
  induction l with
  | nil => cases hmem
  | cons a t ih =>
    rw [List.map_cons] at hnd
    rw [List.nodup_cons] at hnd
    by_cases ha : a.id = id
    · have haj : a = j0 := by
        rcases List.mem_cons.mp hmem with h | h
        · exact h.symm
        · have hmm : j0.id ∈ t.map Job.id := List.mem_map_of_mem Job.id h
          rw [hid, ← ha] at hmm
          exact absurd hmm hnd.1
      subst haj
      have ht : t.map (fun j => if j.id = id then g j else j) = t := by
        have h' : ∀ j ∈ t, (if j.id = id then g j else j) = j := by
          intro j hj
          have hne : j.id ≠ id := by
            intro hc
            have hmm : j.id ∈ t.map Job.id := List.mem_map_of_mem Job.id hj
            rw [hc, ← ha] at hmm
            exact hnd.1 hmm
          simp [hne]
        calc t.map (fun j => if j.id = id then g j else j) = t.map (fun j => j) :=
              List.map_congr_left h'
          _ = t := List.map_id' t
      simp [ha, ht, List.countP_cons, h0, h1]
    · have hmt : j0 ∈ t := by
        rcases List.mem_cons.mp hmem with h | h
        · exact absurd (h ▸ hid) ha
        · exact h
      simp only [List.map_cons, if_neg ha, List.countP_cons]
      rw [ih hnd.2 hmt]
      omega

/-! ### Projection transport for `find?` -/

/-- If two job lists agree under a projection that retains the id, `find?`
by id agrees under that projection as well. -/
theorem find?_map_of_map_eq {β : Type} (f : Job I O → β) (idOf : β → Nat)
    (hidOf : ∀ j, idOf (f j) = j.id) (id : Nat) :
    ∀ (l₁ l₂ : List (Job I O)), l₁.map f = l₂.map f →
      (l₁.find? (fun j => j.id = id)).map f
        = (l₂.find? (fun j => j.id = id)).map f := by
  intro l₁
  induction l₁ with
  | nil =>
    intro l₂ h
    cases l₂ with
    | nil => rfl
    | cons b t₂ => simp at h
  | cons a t ih =>
    intro l₂ h
    cases l₂ with
    | nil => simp at h
    | cons b t₂ =>
      simp only [List.map_cons, List.cons.injEq] at h
      have hid : a.id = b.id := by
        have := congrArg idOf h.1
        rwa [hidOf, hidOf] at this
      by_cases hcase : a.id = id
      · rw [List.find?_cons_of_pos _ (by simp [hcase]),
          List.find?_cons_of_pos _ (by simp [← hid, hcase])]
        simp [h.1]
      · rw [List.find?_cons_of_neg _ (by simp [hcase]),
          List.find?_cons_of_neg _ (by simp [← hid, hcase])]
        exact ih t₂ h.2

/-- Transport `findJob` along a jobs-projection equality. -/
theorem findJob_map_eq {β : Type} (f : Job I O → β) (idOf : β → Nat)
    (hidOf : ∀ j, idOf (f j) = j.id) {s s' : QueueState I O}
    (h : s'.jobs.map f = s.jobs.map f) (id : Nat) :
    (findJob s' id).map f = (findJob s id).map f :=
  find?_map_of_map_eq f idOf hidOf id s'.jobs s.jobs h

/-! ### Framing: what each entry point leaves untouched -/

/-- Projection of a job to the fields the admission controller reads. -/
def schedProj (j : Job I O) : Nat × Bool × Bool := (j.id, j.started, j.executorSettled)

/-- The state fields the cancellation family (`onTimeoutOrAbort` and every
path reaching it) leaves untouched: the backlog, the slot counter, the start
history, the id counter, and every job's scheduling fields; events only grow. -/
structure CancelFrame (s s' : QueueState I O) : Prop where
  queue : s'.queue = s.queue
  processing : s'.processingJobs = s.processingJobs
  startedOrder : s'.startedOrder = s.startedOrder
  nextId : s'.nextId = s.nextId
  concurrency : s'.concurrency = s.concurrency
  name : s'.name = s.name
  jobsSched : s'.jobs.map schedProj = s.jobs.map schedProj
  eventsPre : s.events <+: s'.events

theorem CancelFrame.refl (s : QueueState I O) : CancelFrame s s :=
  ⟨rfl, rfl, rfl, rfl, rfl, rfl, rfl, List.prefix_rfl⟩

theorem CancelFrame.comp {s₁ s₂ s₃ : QueueState I O}
    (h₁ : CancelFrame s₁ s₂) (h₂ : CancelFrame s₂ s₃) : CancelFrame s₁ s₃ :=
  ⟨h₂.queue.trans h₁.queue, h₂.processing.trans h₁.processing,
    h₂.startedOrder.trans h₁.startedOrder, h₂.nextId.trans h₁.nextId,
    h₂.concurrency.trans h₁.concurrency, h₂.name.trans h₁.name,
    h₂.jobsSched.trans h₁.jobsSched, h₁.eventsPre.trans h₂.eventsPre⟩

theorem cancelFrame_emit (s : QueueState I O) (e : QEvent I O) :
    CancelFrame s (emit s e) :=
  ⟨rfl, rfl, rfl, rfl, rfl, rfl, rfl, ⟨[e], rfl⟩⟩

theorem cancelFrame_updateJob (s : QueueState I O) (id : Nat)
    (g : Job I O → Job I O) (hg : ∀ j, schedProj (g j) = schedProj j) :
    CancelFrame s (updateJob s id g) :=
  ⟨rfl, rfl, rfl, rfl, rfl, rfl, updateJob_jobs_map s id g schedProj hg,
    List.prefix_rfl⟩

theorem cancelFrame_onTimeoutOrAbort (s : QueueState I O) (id : Nat) :
    CancelFrame s (onTimeoutOrAbort s id) := by
  cases hfind : findJob s id with
  | none =>
    rw [onTimeoutOrAbort_eq_none hfind]
    exact CancelFrame.refl s
  | some j =>
    by_cases hp : j.status = JobStatus.pending
    · rw [onTimeoutOrAbort_eq_pending hfind hp]
      exact (cancelFrame_updateJob s id _
        (fun j' => by simp [schedProj, cancelUpdate, resolveUpdate, rejectUpdate, cleanupJob])).comp (cancelFrame_emit _ _)
    · rw [onTimeoutOrAbort_eq_terminal hfind hp]
      exact CancelFrame.refl s

theorem cancelFrame_fireJobAbort (s : QueueState I O) (id : Nat) :
    CancelFrame s (fireJobAbort s id) := by
  cases hfind : findJob s id with
  | none =>
    rw [fireJobAbort_eq_none hfind]
    exact CancelFrame.refl s
  | some j =>
    cases hab : j.jobAborted with
    | true =>
      rw [fireJobAbort_eq_already hfind hab]
      exact CancelFrame.refl s
    | false =>
      rw [fireJobAbort_eq_fire hfind hab]
      exact (cancelFrame_updateJob s id _ (fun j' => by simp [schedProj, markAborted])).comp
        (cancelFrame_onTimeoutOrAbort _ id)

theorem cancelFrame_abortJobOp (s : QueueState I O) (id : Nat) :
    CancelFrame s (abortJobOp s id) := by
  cases hfind : findJob s id with
  | none =>
    rw [abortJobOp_eq_none hfind]
    exact cancelFrame_emit s _
  | some j =>
    cases hl : j.abortJobListener with
    | true =>
      rw [abortJobOp_eq_listener hfind hl]
      exact (cancelFrame_emit s _).comp (cancelFrame_fireJobAbort _ id)
    | false =>
      rw [abortJobOp_eq_noListener hfind hl]
      exact cancelFrame_emit s _

theorem cancelFrame_fireTimeoutOp (s : QueueState I O) (id : Nat) :
    CancelFrame s (fireTimeoutOp s id) := by
  cases hfind : findJob s id with
  | none =>
    rw [fireTimeoutOp_eq_none hfind]
    exact CancelFrame.refl s
  | some j =>
    cases ht : j.timer with
    | true =>
      rw [fireTimeoutOp_eq_armed hfind ht]
      exact cancelFrame_onTimeoutOrAbort s id
    | false =>
      rw [fireTimeoutOp_eq_noTimer hfind ht]
      exact CancelFrame.refl s

theorem cancelFrame_fireExternalOp (s : QueueState I O) (id : Nat) :
    CancelFrame s (fireExternalOp s id) := by
  cases hfind : findJob s id with
  | none =>
    rw [fireExternalOp_eq_none hfind]
    exact CancelFrame.refl s
  | some j =>
    cases hl : j.externalListener with
    | true =>
      rw [fireExternalOp_eq_listener hfind hl]
      exact cancelFrame_fireJobAbort s id
    | false =>
      rw [fireExternalOp_eq_noListener hfind hl]
      exact CancelFrame.refl s

theorem cancelFrame_foldl_fireJobAbort (ids : List Nat) :
    ∀ s : QueueState I O, CancelFrame s (ids.foldl fireJobAbort s) := by
  induction ids with
  | nil => exact fun s => CancelFrame.refl s
  | cons a t ih =>
    intro s
    exact (cancelFrame_fireJobAbort s a).comp (ih (fireJobAbort s a))

theorem cancelFrame_shutdownOp (s : QueueState I O) :
    CancelFrame s (shutdownOp s) := by
  unfold shutdownOp
  have h := cancelFrame_foldl_fireJobAbort
    ((s.jobs.filter (fun j => j.queueAbortGen = some s.generation)).map Job.id) s
  exact ⟨h.queue, h.processing, h.startedOrder, h.nextId, h.concurrency, h.name,
    h.jobsSched, h.eventsPre⟩

theorem shutdownOp_generation (s : QueueState I O) :
    (shutdownOp s).generation
      = (((s.jobs.filter (fun j => j.queueAbortGen = some s.generation)).map
          Job.id).foldl fireJobAbort s).generation + 1 := rfl

/-- No cancellation-family step changes the generation counter. -/
theorem onTimeoutOrAbort_generation (s : QueueState I O) (id : Nat) :
    (onTimeoutOrAbort s id).generation = s.generation := by
  cases hfind : findJob s id with
  | none => rw [onTimeoutOrAbort_eq_none hfind]
  | some j =>
    by_cases hp : j.status = JobStatus.pending
    · rw [onTimeoutOrAbort_eq_pending hfind hp]
      rfl
    · rw [onTimeoutOrAbort_eq_terminal hfind hp]

theorem fireJobAbort_generation (s : QueueState I O) (id : Nat) :
    (fireJobAbort s id).generation = s.generation := by
  cases hfind : findJob s id with
  | none => rw [fireJobAbort_eq_none hfind]
  | some j =>
    cases hab : j.jobAborted with
    | true => rw [fireJobAbort_eq_already hfind hab]
    | false =>
      rw [fireJobAbort_eq_fire hfind hab]
      rw [onTimeoutOrAbort_generation]
      rfl

theorem foldl_fireJobAbort_generation (ids : List Nat) :
    ∀ s : QueueState I O, (ids.foldl fireJobAbort s).generation = s.generation := by
  induction ids with
  | nil => exact fun _ => rfl
  | cons a t ih =>
    intro s
    rw [List.foldl_cons, ih, fireJobAbort_generation]

/-! ### Framing for the admission loop -/

/-- The admission loop emits no events. -/
theorem run_events (s : QueueState I O) : (run s).events = s.events := by
  induction s using run_rec with
  | case1 s h hq => rw [run_eq_nil s hq]
  | case2 s h id rest hq hfind ih =>
    rw [run_eq_cons s h id rest hq, hfind]
    exact ih
  | case3 s h id rest hq j hfind hab ih =>
    rw [run_eq_skip s h id rest hq j hfind hab]
    exact ih
  | case4 s h id rest hq j hfind hab ih =>
    rw [run_eq_start s h id rest hq j hfind hab]
    exact ih
  | case5 s h => rw [run_eq_stop s h]

/-- The admission loop only rewrites `jobIndex` and `started` inside jobs. -/
theorem run_jobs_map {β : Type} (f : Job I O → β)
    (hf : ∀ j : Job I O, f (startUpdate j) = f j) :
    ∀ s : QueueState I O, (run s).jobs.map f = s.jobs.map f := by
  intro s
  induction s using run_rec with
  | case1 s h hq => rw [run_eq_nil s hq]
  | case2 s h id rest hq hfind ih =>
    rw [run_eq_cons s h id rest hq, hfind]
    exact ih
  | case3 s h id rest hq j hfind hab ih =>
    rw [run_eq_skip s h id rest hq j hfind hab]
    exact ih
  | case4 s h id rest hq j hfind hab ih =>
    rw [run_eq_start s h id rest hq j hfind hab]
    rw [ih]
    exact updateJob_jobs_map _ id _ f hf
  | case5 s h => rw [run_eq_stop s h]

theorem run_nextId (s : QueueState I O) : (run s).nextId = s.nextId := by
  induction s using run_rec with
  | case1 s h hq => rw [run_eq_nil s hq]
  | case2 s h id rest hq hfind ih =>
    rw [run_eq_cons s h id rest hq, hfind]
    exact ih
  | case3 s h id rest hq j hfind hab ih =>
    rw [run_eq_skip s h id rest hq j hfind hab]
    exact ih
  | case4 s h id rest hq j hfind hab ih =>
    rw [run_eq_start s h id rest hq j hfind hab]
    exact ih
  | case5 s h => rw [run_eq_stop s h]

theorem run_generation (s : QueueState I O) : (run s).generation = s.generation := by
  induction s using run_rec with
  | case1 s h hq => rw [run_eq_nil s hq]
  | case2 s h id rest hq hfind ih =>
    rw [run_eq_cons s h id rest hq, hfind]
    exact ih
  | case3 s h id rest hq j hfind hab ih =>
    rw [run_eq_skip s h id rest hq j hfind hab]
    exact ih
  | case4 s h id rest hq j hfind hab ih =>
    rw [run_eq_start s h id rest hq j hfind hab]
    exact ih
  | case5 s h => rw [run_eq_stop s h]

theorem run_concurrency (s : QueueState I O) :
    (run s).concurrency = s.concurrency := by
  induction s using run_rec with
  | case1 s h hq => rw [run_eq_nil s hq]
  | case2 s h id rest hq hfind ih =>
    rw [run_eq_cons s h id rest hq, hfind]
    exact ih
  | case3 s h id rest hq j hfind hab ih =>
    rw [run_eq_skip s h id rest hq j hfind hab]
    exact ih
  | case4 s h id rest hq j hfind hab ih =>
    rw [run_eq_start s h id rest hq j hfind hab]
    exact ih
  | case5 s h => rw [run_eq_stop s h]

/-! ### The state invariant of the queue

All fields translate run-time facts of the source: `processingJobs` counts
exactly the jobs handed to the executor whose promise has not yet settled;
the backlog holds only not-yet-started, not-yet-settled jobs; ids increase
in submission order along the backlog and along the start order. -/

/-- The predicate counted by `processingJobs`: job is being processed. -/
def isRunning (j : Job I O) : Bool := j.started && !j.executorSettled

structure Inv (s : QueueState I O) : Prop where
  nodupIds : (s.jobs.map Job.id).Nodup
  idsLt : ∀ j ∈ s.jobs, j.id < s.nextId
  queueSub : ∀ b ∈ s.queue,
    ∃ j ∈ s.jobs, j.id = b ∧ j.started = false ∧ j.status ≠ JobStatus.processed
  settledStarted : ∀ j ∈ s.jobs, j.executorSettled = true → j.started = true
  countEq : s.processingJobs = ((s.jobs.countP isRunning : Nat) : Int)
  countLe : s.processingJobs ≤ (s.concurrency : Int)
  queueSorted : s.queue.Pairwise (· < ·)
  startedSorted : s.startedOrder.Pairwise (· < ·)
  startedLtQueue : ∀ t ∈ s.startedOrder, ∀ b ∈ s.queue, t < b
  startedLtNext : ∀ t ∈ s.startedOrder, t < s.nextId
  queueLtNext : ∀ b ∈ s.queue, b < s.nextId

theorem Inv_emit {s : QueueState I O} (h : Inv s) (e : QEvent I O) :
    Inv (emit s e) := by
  cases h
  constructor <;> assumption

/-- Popping the backlog head preserves the invariant. -/
theorem Inv_queue_tail {s : QueueState I O} (h : Inv s) {id : Nat}
    {rest : List Nat} (hq : s.queue = id :: rest) :
    Inv ({ s with queue := rest } : QueueState I O) := by
  obtain ⟨h1, h2, h3, h4, h5, h6, h7, h8, h9, h10, h11⟩ := h
  rw [hq] at h3 h7 h9 h11
  exact ⟨h1, h2,
    fun b hb => h3 b (List.mem_cons_of_mem id hb),
    h4, h5, h6, (List.pairwise_cons.mp h7).2, h8,
    fun t ht b hb => h9 t ht b (List.mem_cons_of_mem id hb),
    h10, fun b hb => h11 b (List.mem_cons_of_mem id hb)⟩

/-- A per-id rewrite that keeps id, started-flag and settled-flag, and does
not move any job into the `processed` status it did not already have,
preserves the invariant. -/
theorem Inv_updateJob {s : QueueState I O} (h : Inv s) (id : Nat)
    (g : Job I O → Job I O)
    (hid : ∀ j, (g j).id = j.id)
    (hstart : ∀ j, (g j).started = j.started)
    (hsettle : ∀ j, (g j).executorSettled = j.executorSettled)
    (hstatus : ∀ j ∈ s.jobs, j.id = id →
      ((g j).status ≠ JobStatus.processed ∨ (g j).status = j.status ∨ j.started = true)) :
    Inv (updateJob s id g) := by
  obtain ⟨h1, h2, h3, h4, h5, h6, h7, h8, h9, h10, h11⟩ := h
  have hids : (updateJob s id g).jobs.map Job.id = s.jobs.map Job.id :=
    updateJob_jobs_map s id g Job.id hid
  refine ⟨hids ▸ h1, ?_, ?_, ?_, ?_, h6, h7, h8, h9, h10, h11⟩
  · intro j hj
    have hmm : j.id ∈ (updateJob s id g).jobs.map Job.id := List.mem_map_of_mem Job.id hj
    rw [hids] at hmm
    rcases List.mem_map.mp hmm with ⟨j0, hj0, hini⟩
    exact hini ▸ h2 j0 hj0
  · intro b hb
    rcases h3 b hb with ⟨j, hj, hjid, hjs, hjp⟩
    by_cases hcase : j.id = id
    · refine ⟨g j, ?_, by rw [hid j]; exact hjid, by rw [hstart j]; exact hjs, ?_⟩
      · unfold updateJob
        simpa [hcase] using List.mem_map_of_mem (fun j' => if j'.id = id then g j' else j') hj
      · rcases hstatus j hj hcase with hne | heq | hst
        · exact hne
        · rw [heq]; exact hjp
        · rw [hjs] at hst; cases hst
    · refine ⟨j, ?_, hjid, hjs, hjp⟩
      unfold updateJob
      simpa [hcase] using List.mem_map_of_mem (fun j' => if j'.id = id then g j' else j') hj
  · intro j hj hsett
    unfold updateJob at hj
    rcases List.mem_map.mp hj with ⟨j0, hj0, hini⟩
    by_cases hcase : j0.id = id
    · subst hini
      rw [if_pos hcase] at hsett ⊢
      rw [hstart j0]
      exact h4 j0 hj0 (by rw [← hsettle j0]; exact hsett)
    · subst hini
      rw [if_neg hcase] at hsett ⊢
      exact h4 j0 hj0 hsett
  · show s.processingJobs = _
    rw [h5]
    unfold updateJob
    norm_cast
    exact (countP_update_congr s.jobs id g isRunning
      (fun j => by simp [isRunning, hstart, hsettle])).symm

/-! ### Invariant preservation, operation by operation -/

theorem Inv_startJob {s : QueueState I O} (h : Inv s) {id : Nat} {rest : List Nat}
    (hq : s.queue = id :: rest) {j : Job I O} (hfind : findJob s id = some j)
    (hproc : s.processingJobs < (s.concurrency : Int)) :
    Inv (startJob ({ s with queue := rest } : QueueState I O) id) := by
  obtain ⟨h1, h2, h3, h4, h5, h6, h7, h8, h9, h10, h11⟩ := h
  have hmem : j ∈ s.jobs := findJob_mem hfind
  have hjid : j.id = id := findJob_id hfind
  have hidq : id ∈ s.queue := by rw [hq]; exact List.mem_cons_self id rest
  obtain ⟨j0, hj0mem, hj0id, hj0started, hj0proc⟩ := h3 id hidq
  have hjj0 : j = j0 := jobs_id_unique h1 hmem hj0mem (by rw [hjid, hj0id])
  rw [← hjj0] at hj0started hj0proc
  have hsettled : j.executorSettled = false := by
    cases hset : j.executorSettled
    · rfl
    · have := h4 j hmem hset
      rw [hj0started] at this
      cases this
  have hrestsorted := h7
  rw [hq, List.pairwise_cons] at hrestsorted
  have hids : (startJob ({ s with queue := rest } : QueueState I O) id).jobs.map Job.id
      = s.jobs.map Job.id :=
    updateJob_jobs_map { s with queue := rest } id _ Job.id (fun j' => rfl)
  refine ⟨hids ▸ h1, ?_, ?_, ?_, ?_, ?_, hrestsorted.2, ?_, ?_, ?_, ?_⟩
  · intro j' hj'
    have hmm : j'.id ∈ (startJob ({ s with queue := rest } : QueueState I O) id).jobs.map Job.id :=
      List.mem_map_of_mem Job.id hj'
    rw [hids] at hmm
    rcases List.mem_map.mp hmm with ⟨j₀, hj₀, hini⟩
    exact hini ▸ h2 j₀ hj₀
  · intro b hb
    obtain ⟨j'', hj''mem, hj''id, hj''st, hj''pr⟩ :=
      h3 b (by rw [hq]; exact List.mem_cons_of_mem id hb)
    have hbne : j''.id ≠ id := by
      rw [hj''id]
      exact Nat.ne_of_gt (hrestsorted.1 b hb)
    exact ⟨j'', List.mem_map.mpr ⟨j'', hj''mem, by simp [hbne]⟩, hj''id, hj''st, hj''pr⟩
  · intro j' hj' hset
    rcases List.mem_map.mp hj' with ⟨j₀, hj₀, hini⟩
    by_cases hcase : j₀.id = id
    · rw [← hini, if_pos hcase]
      rfl
    · rw [← hini, if_neg hcase] at hset ⊢
      exact h4 j₀ hj₀ hset
  · have hup := countP_update_up s.jobs id startUpdate
      isRunning h1 j hmem hjid
      (by simp [isRunning, hj0started]) (by simp [isRunning, startUpdate, hsettled])
    show s.processingJobs + 1
      = ((List.countP isRunning (s.jobs.map (fun j' => if j'.id = id then
          startUpdate j' else j')) : Nat) : Int)
    rw [h5, hup]
    push_cast
    ring
  · show s.processingJobs + 1 ≤ (s.concurrency : Int)
    omega
  · show List.Pairwise (· < ·) (s.startedOrder ++ [id])
    rw [List.pairwise_append]
    refine ⟨h8, List.pairwise_singleton _ _, ?_⟩
    intro t ht b hb
    rw [List.mem_singleton] at hb
    rw [hb]
    exact h9 t ht id hidq
  · intro t ht b hb
    rcases List.mem_append.mp ht with htold | htid
    · exact h9 t htold b (by rw [hq]; exact List.mem_cons_of_mem id hb)
    · rw [List.mem_singleton] at htid
      rw [htid]
      exact hrestsorted.1 b hb
  · intro t ht
    rcases List.mem_append.mp ht with htold | htid
    · exact h10 t htold
    · rw [List.mem_singleton] at htid
      rw [htid]
      exact h11 id hidq
  · intro b hb
    exact h11 b (by rw [hq]; exact List.mem_cons_of_mem id hb)

theorem Inv_run (s : QueueState I O) : Inv s → Inv (run s) := by
  induction s using run_rec with
  | case1 s hlt hq =>
    intro h
    rwa [run_eq_nil s hq]
  | case2 s hlt id rest hq hfind ih =>
    intro h
    rw [run_eq_cons s hlt id rest hq, hfind]
    exact ih (Inv_queue_tail h hq)
  | case3 s hlt id rest hq j hfind hab ih =>
    intro h
    rw [run_eq_skip s hlt id rest hq j hfind hab]
    exact ih (Inv_queue_tail h hq)
  | case4 s hlt id rest hq j hfind hab ih =>
    intro h
    rw [run_eq_start s hlt id rest hq j hfind hab]
    exact ih (Inv_startJob h hq hfind hlt)
  | case5 s hlt =>
    intro h
    rwa [run_eq_stop s hlt]

theorem Inv_process {s : QueueState I O} (h : Inv s) (data : I) (t : Int)
    (sig : Bool) : Inv (process s data t sig) := by
  obtain ⟨h1, h2, h3, h4, h5, h6, h7, h8, h9, h10, h11⟩ := h
  rw [process_eq]
  apply Inv_run
  apply Inv_emit
  refine ⟨?_, ?_, ?_, ?_, ?_, h6, ?_, h8, ?_, ?_, ?_⟩
  · show (List.map Job.id (s.jobs ++ [newJob s data t sig])).Nodup
    rw [List.map_append]
    rw [List.nodup_append]
    refine ⟨h1, List.nodup_singleton _, ?_⟩
    intro a ha hb
    rcases List.mem_map.mp ha with ⟨j, hj, hji⟩
    have hlt' := h2 j hj
    simp only [List.map_cons, List.map_nil, List.mem_singleton] at hb
    rw [← hji] at hb
    show False
    have : (newJob s data t sig).id = s.nextId := rfl
    rw [this] at hb
    omega
  · intro j hj
    rcases List.mem_append.mp hj with hold | hnew
    · have := h2 j hold
      show j.id < s.nextId + 1
      omega
    · rw [List.mem_singleton] at hnew
      subst hnew
      show s.nextId < s.nextId + 1
      omega
  · intro b hb
    rcases List.mem_append.mp hb with hold | hnew
    · obtain ⟨j'', hm, hi, hs, hp⟩ := h3 b hold
      exact ⟨j'', List.mem_append_left _ hm, hi, hs, hp⟩
    · rw [List.mem_singleton] at hnew
      subst hnew
      refine ⟨newJob s data t sig, List.mem_append_right _ (List.mem_singleton_self _),
        rfl, rfl, ?_⟩
      intro hcon
      cases hcon
  · intro j hj hset
    rcases List.mem_append.mp hj with hold | hnew
    · exact h4 j hold hset
    · rw [List.mem_singleton] at hnew
      subst hnew
      cases hset
  · show s.processingJobs = _
    rw [h5]
    norm_cast
    rw [List.countP_append]
    have : List.countP isRunning [newJob s data t sig] = 0 := by
      simp [isRunning, newJob]
    omega
  · show List.Pairwise _ (s.queue ++ [s.nextId])
    rw [List.pairwise_append]
    refine ⟨h7, List.pairwise_singleton _ _, ?_⟩
    intro a ha b hb
    rw [List.mem_singleton] at hb
    subst hb
    exact h11 a ha
  · intro t' ht' b hb
    rcases List.mem_append.mp hb with hold | hnew
    · exact h9 t' ht' b hold
    · rw [List.mem_singleton] at hnew
      subst hnew
      exact h10 t' ht'
  · intro t' ht'
    have := h10 t' ht'
    show t' < s.nextId + 1
    omega
  · intro b hb
    rcases List.mem_append.mp hb with hold | hnew
    · have := h11 b hold
      show b < s.nextId + 1
      omega
    · rw [List.mem_singleton] at hnew
      subst hnew
      show s.nextId < s.nextId + 1
      omega

theorem Inv_onTimeoutOrAbort {s : QueueState I O} (h : Inv s) (id : Nat) :
    Inv (onTimeoutOrAbort s id) := by
  cases hfind : findJob s id with
  | none => rwa [onTimeoutOrAbort_eq_none hfind]
  | some j =>
    by_cases hp : j.status = JobStatus.pending
    · rw [onTimeoutOrAbort_eq_pending hfind hp]
      apply Inv_emit
      refine Inv_updateJob h id _ ?_ ?_ ?_ ?_
      · exact fun j' => rfl
      · exact fun j' => rfl
      · exact fun j' => rfl
      · intro j' hj' hid'
        left
        intro hcon
        cases hcon
    · rwa [onTimeoutOrAbort_eq_terminal hfind hp]

theorem Inv_fireJobAbort {s : QueueState I O} (h : Inv s) (id : Nat) :
    Inv (fireJobAbort s id) := by
  cases hfind : findJob s id with
  | none => rwa [fireJobAbort_eq_none hfind]
  | some j =>
    cases hab : j.jobAborted with
    | true => rwa [fireJobAbort_eq_already hfind hab]
    | false =>
      rw [fireJobAbort_eq_fire hfind hab]
      apply Inv_onTimeoutOrAbort
      refine Inv_updateJob h id _ ?_ ?_ ?_ ?_
      · exact fun j' => rfl
      · exact fun j' => rfl
      · exact fun j' => rfl
      · intro j' hj' hid'
        right
        left
        rfl

theorem Inv_abortJobOp {s : QueueState I O} (h : Inv s) (id : Nat) :
    Inv (abortJobOp s id) := by
  cases hfind : findJob s id with
  | none =>
    rw [abortJobOp_eq_none hfind]
    exact Inv_emit h _
  | some j =>
    cases hl : j.abortJobListener with
    | true =>
      rw [abortJobOp_eq_listener hfind hl]
      exact Inv_fireJobAbort (Inv_emit h _) id
    | false =>
      rw [abortJobOp_eq_noListener hfind hl]
      exact Inv_emit h _

theorem Inv_fireTimeoutOp {s : QueueState I O} (h : Inv s) (id : Nat) :
    Inv (fireTimeoutOp s id) := by
  cases hfind : findJob s id with
  | none => rwa [fireTimeoutOp_eq_none hfind]
  | some j =>
    cases ht : j.timer with
    | true =>
      rw [fireTimeoutOp_eq_armed hfind ht]
      exact Inv_onTimeoutOrAbort h id
    | false => rwa [fireTimeoutOp_eq_noTimer hfind ht]

theorem Inv_fireExternalOp {s : QueueState I O} (h : Inv s) (id : Nat) :
    Inv (fireExternalOp s id) := by
  cases hfind : findJob s id with
  | none => rwa [fireExternalOp_eq_none hfind]
  | some j =>
    cases hl : j.externalListener with
    | true =>
      rw [fireExternalOp_eq_listener hfind hl]
      exact Inv_fireJobAbort h id
    | false => rwa [fireExternalOp_eq_noListener hfind hl]

theorem Inv_setGeneration {s : QueueState I O} (h : Inv s) (n : Nat) :
    Inv ({ s with generation := n } : QueueState I O) := by
  cases h
  constructor <;> assumption

theorem Inv_foldl_fireJobAbort (ids : List Nat) :
    ∀ s : QueueState I O, Inv s → Inv (ids.foldl fireJobAbort s) := by
  induction ids with
  | nil => exact fun s h => h
  | cons a t ih =>
    intro s h
    exact ih (fireJobAbort s a) (Inv_fireJobAbort h a)

theorem Inv_shutdownOp {s : QueueState I O} (h : Inv s) : Inv (shutdownOp s) := by
  unfold shutdownOp
  exact Inv_setGeneration (Inv_foldl_fireJobAbort _ s h) _

theorem Inv_jobResolve {s : QueueState I O} (h : Inv s) (id : Nat) (o : O)
    (hstarted : ∀ j ∈ s.jobs, j.id = id → j.started = true) :
    Inv (jobResolve s id o) := by
  cases hfind : findJob s id with
  | none => rwa [jobResolve_eq_none hfind]
  | some j =>
    by_cases hp : j.status = JobStatus.pending
    · rw [jobResolve_eq_pending hfind hp]
      apply Inv_emit
      refine Inv_updateJob h id _ ?_ ?_ ?_ ?_
      · exact fun j' => rfl
      · exact fun j' => rfl
      · exact fun j' => rfl
      · intro j' hj' hid'
        right
        right
        exact hstarted j' hj' hid'
    · rwa [jobResolve_eq_terminal hfind hp]

theorem Inv_jobReject {s : QueueState I O} (h : Inv s) (id : Nat) (err : JSVal)
    (hstarted : ∀ j ∈ s.jobs, j.id = id → j.started = true) :
    Inv (jobReject s id err) := by
  cases hfind : findJob s id with
  | none => rwa [jobReject_eq_none hfind]
  | some j =>
    by_cases hp : j.status = JobStatus.pending
    · rw [jobReject_eq_pending hfind hp]
      apply Inv_emit
      refine Inv_updateJob h id _ ?_ ?_ ?_ ?_
      · exact fun j' => rfl
      · exact fun j' => rfl
      · exact fun j' => rfl
      · intro j' hj' hid'
        right
        right
        exact hstarted j' hj' hid'
    · rwa [jobReject_eq_terminal hfind hp]

theorem cancelFrame_jobResolve (s : QueueState I O) (id : Nat) (o : O) :
    CancelFrame s (jobResolve s id o) := by
  cases hfind : findJob s id with
  | none =>
    rw [jobResolve_eq_none hfind]
    exact CancelFrame.refl s
  | some j =>
    by_cases hp : j.status = JobStatus.pending
    · rw [jobResolve_eq_pending hfind hp]
      exact (cancelFrame_updateJob s id _
        (fun j' => by simp [schedProj, cancelUpdate, resolveUpdate, rejectUpdate, cleanupJob])).comp (cancelFrame_emit _ _)
    · rw [jobResolve_eq_terminal hfind hp]
      exact CancelFrame.refl s

theorem cancelFrame_jobReject (s : QueueState I O) (id : Nat) (err : JSVal) :
    CancelFrame s (jobReject s id err) := by
  cases hfind : findJob s id with
  | none =>
    rw [jobReject_eq_none hfind]
    exact CancelFrame.refl s
  | some j =>
    by_cases hp : j.status = JobStatus.pending
    · rw [jobReject_eq_pending hfind hp]
      exact (cancelFrame_updateJob s id _
        (fun j' => by simp [schedProj, cancelUpdate, resolveUpdate, rejectUpdate, cleanupJob])).comp (cancelFrame_emit _ _)
    · rw [jobReject_eq_terminal hfind hp]
      exact CancelFrame.refl s

/-- After the executor of a running job settles, releasing the slot and
flipping the settled flag restores the invariant. -/
theorem Inv_afterSettle {s s1 : QueueState I O} (hInv1 : Inv s1)
    (hframe : CancelFrame s s1) {id : Nat} {j : Job I O}
    (hfind : findJob s id = some j) (hstj : j.started = true)
    (hsej : j.executorSettled = false) :
    Inv ({ updateJob s1 id markExecutorSettled with
      processingJobs := s1.processingJobs - 1 } : QueueState I O) := by
  have htrans := findJob_map_eq schedProj (fun pr => pr.1)
    (fun j' => rfl) hframe.jobsSched id
  rw [hfind] at htrans
  have hsome : ∃ j1, findJob s1 id = some j1 := by
    cases hcase : findJob s1 id with
    | none => rw [hcase] at htrans; cases htrans
    | some j1 => exact ⟨j1, rfl⟩
  obtain ⟨j1, hfind1⟩ := hsome
  rw [hfind1] at htrans
  have hsched : schedProj j1 = schedProj j := by
    simpa using htrans
  have hj1id : j1.id = id := findJob_id hfind1
  have hj1st : j1.started = true := by
    have := congrArg (fun pr => pr.2.1) hsched
    simpa [schedProj, hstj] using this
  have hj1se : j1.executorSettled = false := by
    have := congrArg (fun pr => pr.2.2) hsched
    simpa [schedProj, hsej] using this
  obtain ⟨h1, h2, h3, h4, h5, h6, h7, h8, h9, h10, h11⟩ := hInv1
  have hj1mem : j1 ∈ s1.jobs := findJob_mem hfind1
  have hids : (updateJob s1 id markExecutorSettled).jobs.map Job.id
      = s1.jobs.map Job.id :=
    updateJob_jobs_map s1 id _ Job.id (fun j' => rfl)
  refine ⟨hids ▸ h1, ?_, ?_, ?_, ?_, ?_, h7, h8, h9, h10, h11⟩
  · intro j' hj'
    have hmm : j'.id ∈ (updateJob s1 id markExecutorSettled).jobs.map Job.id :=
      List.mem_map_of_mem Job.id hj'
    rw [hids] at hmm
    rcases List.mem_map.mp hmm with ⟨j₀, hj₀, hini⟩
    exact hini ▸ h2 j₀ hj₀
  · intro b hb
    obtain ⟨j'', hm, hi, hs, hpr⟩ := h3 b hb
    have hbne : j''.id ≠ id := by
      intro hc
      have : j'' = j1 := jobs_id_unique h1 hm hj1mem (by rw [hc, hj1id])
      rw [this] at hs
      rw [hj1st] at hs
      cases hs
    exact ⟨j'', List.mem_map.mpr ⟨j'', hm, by simp [hbne]⟩, hi, hs, hpr⟩
  · intro j' hj' hset
    rcases List.mem_map.mp hj' with ⟨j₀, hj₀, hini⟩
    by_cases hcase : j₀.id = id
    · rw [← hini, if_pos hcase]
      show j₀.started = true
      have : j₀ = j1 := jobs_id_unique h1 hj₀ hj1mem (by rw [hcase, hj1id])
      rw [this]
      exact hj1st
    · rw [← hini, if_neg hcase] at hset ⊢
      exact h4 j₀ hj₀ hset
  · have hdown := countP_update_down s1.jobs id markExecutorSettled
      isRunning h1 j1 hj1mem hj1id
      (by simp [isRunning, hj1st, hj1se]) (by simp [isRunning, markExecutorSettled])
    show s1.processingJobs - 1
      = ((List.countP isRunning (s1.jobs.map (fun j' => if j'.id = id then
          markExecutorSettled j' else j')) : Nat) : Int)
    rw [h5, hdown]
    push_cast
    ring
  · show s1.processingJobs - 1 ≤ (s1.concurrency : Int)
    omega

theorem Inv_settleExec {s : QueueState I O} (h : Inv s) (id : Nat)
    (res : Except JSVal O) : Inv (settleExec s id res) := by
  cases hfind : findJob s id with
  | none => rwa [settleExec_eq_none hfind]
  | some j =>
    cases hrun : (j.started && !j.executorSettled) with
    | false => rwa [settleExec_eq_notRunning hfind hrun]
    | true =>
      have hstj : j.started = true := by
        rcases Bool.and_eq_true_iff.mp hrun with ⟨hs, _⟩
        exact hs
      have hsej : j.executorSettled = false := by
        rcases Bool.and_eq_true_iff.mp hrun with ⟨_, hs⟩
        simpa using hs
      have hstarted : ∀ j' ∈ s.jobs, j'.id = id → j'.started = true := by
        intro j' hj' hid'
        have : j' = j := jobs_id_unique h.nodupIds hj' (findJob_mem hfind)
          (by rw [hid', findJob_id hfind])
        rw [this]
        exact hstj
      cases res with
      | ok o =>
        rw [settleExec_ok_eq hfind hrun]
        exact Inv_run _ (Inv_afterSettle (Inv_jobResolve h id o hstarted)
          (cancelFrame_jobResolve s id o) hfind hstj hsej)
      | error e =>
        rw [settleExec_error_eq hfind hrun]
        exact Inv_run _ (Inv_afterSettle (Inv_jobReject h id e hstarted)
          (cancelFrame_jobReject s id e) hfind hstj hsej)

/-! ### The invariant holds in every reachable state -/

theorem Inv_step {s : QueueState I O} (h : Inv s) (e : QStep I O) :
    Inv (step s e) := by
  cases e with
  | processStep d t sig => exact Inv_process h d t sig
  | abortJobStep id => exact Inv_abortJobOp h id
  | shutdownStep => exact Inv_shutdownOp h
  | timeoutStep id => exact Inv_fireTimeoutOp h id
  | externalStep id => exact Inv_fireExternalOp h id
  | settleStep id res => exact Inv_settleExec h id res

theorem Inv_runSteps (l : List (QStep I O)) :
    ∀ s : QueueState I O, Inv s → Inv (runSteps s l) := by
  induction l with
  | nil => exact fun s h => h
  | cons e t ih =>
    intro s h
    exact ih (step s e) (Inv_step h e)

theorem Inv_initQueue (name : String) (concurrency : Nat) :
    Inv (initQueue name concurrency : QueueState I O) := by
  constructor <;> simp [initQueue]

/-! ### Preservation of the construction parameters across steps -/

theorem process_concurrency (s : QueueState I O) (data : I) (t : Int)
    (sig : Bool) : (process s data t sig).concurrency = s.concurrency := by
  rw [process_eq, run_concurrency]
  rfl

theorem settleExec_concurrency (s : QueueState I O) (id : Nat)
    (res : Except JSVal O) : (settleExec s id res).concurrency = s.concurrency := by
  cases hfind : findJob s id with
  | none => rw [settleExec_eq_none hfind]
  | some j =>
    cases hrun : (j.started && !j.executorSettled) with
    | false => rw [settleExec_eq_notRunning hfind hrun]
    | true =>
      cases res with
      | ok o =>
        rw [settleExec_ok_eq hfind hrun, run_concurrency]
        exact (cancelFrame_jobResolve s id o).concurrency
      | error e =>
        rw [settleExec_error_eq hfind hrun, run_concurrency]
        exact (cancelFrame_jobReject s id e).concurrency

theorem step_concurrency (s : QueueState I O) (e : QStep I O) :
    (step s e).concurrency = s.concurrency := by
  cases e with
  | processStep d t sig => exact process_concurrency s d t sig
  | abortJobStep id => exact (cancelFrame_abortJobOp s id).concurrency
  | shutdownStep => exact (cancelFrame_shutdownOp s).concurrency
  | timeoutStep id => exact (cancelFrame_fireTimeoutOp s id).concurrency
  | externalStep id => exact (cancelFrame_fireExternalOp s id).concurrency
  | settleStep id res => exact settleExec_concurrency s id res

theorem runSteps_concurrency (l : List (QStep I O)) :
    ∀ s : QueueState I O, (runSteps s l).concurrency = s.concurrency := by
  induction l with
  | nil => exact fun _ => rfl
  | cons e t ih =>
    intro s
    rw [runSteps, List.foldl_cons]
    rw [show t.foldl step (step s e) = runSteps (step s e) t from rfl]
    rw [ih (step s e), step_concurrency]

/-! ### Claim theorems -/

/-- C1: for every queue constructed with concurrency limit K ≥ 1 and every
sequence of submit, cancel, shutdown, timer/signal and executor-settlement
steps, the count of running jobs satisfies 0 ≤ processingJobs ≤ K. -/
theorem c1_processing_bounded (name : String) (K : Nat) (hK : 1 ≤ K)
    (l : List (QStep I O)) :
    0 ≤ (runSteps (initQueue name K : QueueState I O) l).processingJobs ∧
      (runSteps (initQueue name K : QueueState I O) l).processingJobs ≤ (K : Int) := by
  have hInv := Inv_runSteps l (initQueue name K) (Inv_initQueue name K)
  constructor
  · rw [hInv.countEq]
    exact Int.natCast_nonneg _
  · have hb := hInv.countLe
    rw [runSteps_concurrency l (initQueue name K)] at hb
    exact hb

theorem c1_processing_bounded_witness :
    1 ≤ 2 ∧
      (0 ≤ (runSteps (initQueue "q" 2 : QueueState Unit Unit)
          [QStep.processStep () 0 false, QStep.processStep () 0 false,
           QStep.processStep () 0 false, QStep.abortJobStep 1,
           QStep.settleStep 0 (Except.ok ()), QStep.shutdownStep]).processingJobs ∧
        (runSteps (initQueue "q" 2 : QueueState Unit Unit)
          [QStep.processStep () 0 false, QStep.processStep () 0 false,
           QStep.processStep () 0 false, QStep.abortJobStep 1,
           QStep.settleStep 0 (Except.ok ()), QStep.shutdownStep]).processingJobs
          ≤ (2 : Int)) :=
  ⟨by decide, c1_processing_bounded "q" 2 (by decide)
    [QStep.processStep () 0 false, QStep.processStep () 0 false,
     QStep.processStep () 0 false, QStep.abortJobStep 1,
     QStep.settleStep 0 (Except.ok ()), QStep.shutdownStep]⟩

/-- C4: ids are assigned in submission order, so FIFO admission reads as:
the ghost start order is strictly increasing in submission index — a job
submitted earlier is handed to the executor at an earlier position (and
never later) than one submitted after it — and the backlog stays strictly
increasing too, so skipping a cancelled pending entry leaves the relative
order of the remaining backlog unchanged. -/
theorem c4_fifo_admission (name : String) (K : Nat) (hK : 1 ≤ K)
    (l : List (QStep I O)) :
    (runSteps (initQueue name K : QueueState I O) l).startedOrder.Pairwise (· < ·) ∧
    (runSteps (initQueue name K : QueueState I O) l).queue.Pairwise (· < ·) ∧
    (∀ i1 i2 : Fin (runSteps (initQueue name K : QueueState I O) l).startedOrder.length,
      i1 < i2 →
        (runSteps (initQueue name K : QueueState I O) l).startedOrder.get i1
          < (runSteps (initQueue name K : QueueState I O) l).startedOrder.get i2) := by
  have hInv := Inv_runSteps l (initQueue name K) (Inv_initQueue name K)
  refine ⟨hInv.startedSorted, hInv.queueSorted, ?_⟩
  intro i1 i2 hlt
  exact List.pairwise_iff_get.mp hInv.startedSorted i1 i2 hlt

theorem c4_fifo_admission_witness :
    1 ≤ 1 ∧
      ((runSteps (initQueue "q" 1 : QueueState Unit Unit)
          [QStep.processStep () 0 false, QStep.processStep () 0 false,
           QStep.processStep () 0 false, QStep.abortJobStep 1,
           QStep.settleStep 0 (Except.ok ())]).startedOrder.Pairwise (· < ·) ∧
        (runSteps (initQueue "q" 1 : QueueState Unit Unit)
          [QStep.processStep () 0 false, QStep.processStep () 0 false,
           QStep.processStep () 0 false, QStep.abortJobStep 1,
           QStep.settleStep 0 (Except.ok ())]).queue.Pairwise (· < ·) ∧
        (∀ i1 i2 : Fin (runSteps (initQueue "q" 1 : QueueState Unit Unit)
            [QStep.processStep () 0 false, QStep.processStep () 0 false,
             QStep.processStep () 0 false, QStep.abortJobStep 1,
             QStep.settleStep 0 (Except.ok ())]).startedOrder.length,
          i1 < i2 →
            (runSteps (initQueue "q" 1 : QueueState Unit Unit)
              [QStep.processStep () 0 false, QStep.processStep () 0 false,
               QStep.processStep () 0 false, QStep.abortJobStep 1,
               QStep.settleStep 0 (Except.ok ())]).startedOrder.get i1
              < (runSteps (initQueue "q" 1 : QueueState Unit Unit)
                [QStep.processStep () 0 false, QStep.processStep () 0 false,
                 QStep.processStep () 0 false, QStep.abortJobStep 1,
                 QStep.settleStep 0 (Except.ok ())]).startedOrder.get i2)) :=
  ⟨by decide, c4_fifo_admission "q" 1 (by decide)
    [QStep.processStep () 0 false, QStep.processStep () 0 false,
     QStep.processStep () 0 false, QStep.abortJobStep 1,
     QStep.settleStep 0 (Except.ok ())]⟩


/-! ### Looking up the rewritten job -/

theorem findJob_updateJob_self {s : QueueState I O} {id : Nat} {j : Job I O}
    (hfind : findJob s id = some j) (g : Job I O → Job I O)
    (hg : ∀ j', (g j').id = j'.id) :
    findJob (updateJob s id g) id = some (g j) := by
  rw [findJob_updateJob s id id g hg, hfind]
  simp [findJob_id hfind]

theorem findJob_updateJob_ne {s : QueueState I O} {id' : Nat} (id : Nat)
    (hne : id ≠ id') (g : Job I O → Job I O)
    (hg : ∀ j', (g j').id = j'.id) :
    findJob (updateJob s id' g) id = findJob s id := by
  rw [findJob_updateJob s id id' g hg]
  cases hfind : findJob s id with
  | none => rfl
  | some j =>
    have : j.id ≠ id' := by rw [findJob_id hfind]; exact hne
    simp [this]

/-- The job fields settlement and cancellation touch: status, outcome, the
job-index entry, the three listeners and the timer. -/
def statusView (j : Job I O) :
    JobStatus × Outcome O × Option Bool × Bool × Bool × Bool × Option Nat :=
  (j.status, j.outcome, j.jobIndex, j.abortJobListener, j.externalListener,
    j.timer, j.queueAbortGen)

/-- C2: exactly-once settlement.  Of the three settlement paths (executor
resolution, executor rejection, cancellation), only the first to observe the
job still `pending` acts: it moves the job to a terminal status, releases the
job index entry, every listener and the timer, settles the outcome and emits
exactly one event.  Once the job is terminal, each path is a complete no-op:
the state (trace included) is returned unchanged. -/
theorem c2_exactly_once_settlement (s : QueueState I O) (id : Nat) (j : Job I O)
    (hfind : findJob s id = some j) (hgen : j.queueAbortGen = some s.generation) :
    (j.status ≠ JobStatus.pending →
      (∀ o : O, jobResolve s id o = s) ∧
      (∀ e : JSVal, jobReject s id e = s) ∧
      onTimeoutOrAbort s id = s) ∧
    (j.status = JobStatus.pending →
      (∀ o : O,
        (findJob (jobResolve s id o) id).map statusView
          = some (JobStatus.processed, Outcome.resolved o, none, false, false,
              false, none) ∧
        (jobResolve s id o).events
          = s.events ++ [QEvent.jobProcessed (id, j.data) (ProcStatus.ok o)
              s.queue.length]) ∧
      (∀ e : JSVal,
        (findJob (jobReject s id e) id).map statusView
          = some (JobStatus.processed, Outcome.rejected (wrapError e), none,
              false, false, false, none) ∧
        (jobReject s id e).events
          = s.events ++ [QEvent.jobProcessed (id, j.data)
              (ProcStatus.failed (wrapError e)) s.queue.length]) ∧
      ((findJob (onTimeoutOrAbort s id) id).map statusView
          = some (JobStatus.aborted,
              Outcome.rejected (JSError.mk
                (if j.jobAborted then CancelReason.abort
                  else CancelReason.timeout).str),
              none, false, false, false, none) ∧
        (onTimeoutOrAbort s id).events
          = s.events ++ [QEvent.jobCancelled (id, j.data)
              (if j.jobAborted then CancelReason.abort else CancelReason.timeout)
              s.queue.length])) := by
  constructor
  · intro hp
    exact ⟨fun o => jobResolve_eq_terminal hfind hp,
      fun e => jobReject_eq_terminal hfind hp,
      onTimeoutOrAbort_eq_terminal hfind hp⟩
  · intro hp
    refine ⟨?_, ?_, ?_⟩
    · intro o
      rw [jobResolve_eq_pending hfind hp]
      constructor
      · rw [findJob_emit,
          findJob_updateJob_self hfind (resolveUpdate s.generation o)
            (fun j' => rfl)]
        simp [statusView, resolveUpdate, cleanupJob, hgen]
      · rfl
    · intro e
      rw [jobReject_eq_pending hfind hp]
      constructor
      · rw [findJob_emit,
          findJob_updateJob_self hfind (rejectUpdate s.generation (wrapError e))
            (fun j' => rfl)]
        simp [statusView, rejectUpdate, cleanupJob, hgen]
      · rfl
    · rw [onTimeoutOrAbort_eq_pending hfind hp]
      constructor
      · rw [findJob_emit,
          findJob_updateJob_self hfind (cancelUpdate s.generation
            (if j.jobAborted then CancelReason.abort else CancelReason.timeout))
            (fun j' => rfl)]
        simp [statusView, cancelUpdate, cleanupJob, hgen]
      · rfl

theorem c2_exactly_once_settlement_witness :
    ∃ s : QueueState Unit Unit, ∃ j : Job Unit Unit,
      findJob s 0 = some j ∧ j.queueAbortGen = some s.generation ∧
        (j.status = JobStatus.pending →
          (jobResolve s 0 ()).events
            = s.events ++ [QEvent.jobProcessed (0, ()) (ProcStatus.ok ())
                s.queue.length]) := by
  refine ⟨runSteps (initQueue "q" 1 : QueueState Unit Unit)
      [QStep.processStep () 0 false],
    { id := 0, data := (), status := JobStatus.pending, jobAborted := false,
      timer := false, timeoutSeconds := 0, abortJobListener := true,
      queueAbortGen := some 0, externalListener := false, jobIndex := some true,
      outcome := Outcome.unsettled, started := true, executorSettled := false },
    ?_, ?_, ?_⟩
  · decide
  · decide
  · intro hp
    exact (((c2_exactly_once_settlement
      (runSteps (initQueue "q" 1 : QueueState Unit Unit)
        [QStep.processStep () 0 false]) 0
      { id := 0, data := (), status := JobStatus.pending, jobAborted := false,
        timer := false, timeoutSeconds := 0, abortJobListener := true,
        queueAbortGen := some 0, externalListener := false, jobIndex := some true,
        outcome := Outcome.unsettled, started := true, executorSettled := false }
      (by decide) (by decide)).2 hp).1 ()).2


/-- C3 counterexample: cancelling a job whose executor is still running does
not release its concurrency slot at the moment cancellation fires.  With
K = 1, job 0 running and job 1 pending in the backlog, `abortJob 0` cancels
job 0 (its status becomes `aborted`), yet `processingJobs` stays 1 and job 1
is not handed to the executor (the start history remains `[0]`). -/
theorem c3_cancel_does_not_free_slot_counterexample :
    ((abortJobOp (runSteps (initQueue "q" 1 : QueueState Unit Unit)
        [QStep.processStep () 0 false, QStep.processStep () 0 false])
        0).processingJobs = 1) ∧
    ((abortJobOp (runSteps (initQueue "q" 1 : QueueState Unit Unit)
        [QStep.processStep () 0 false, QStep.processStep () 0 false])
        0).startedOrder = [0]) ∧
    ((findJob (abortJobOp (runSteps (initQueue "q" 1 : QueueState Unit Unit)
        [QStep.processStep () 0 false, QStep.processStep () 0 false]) 0)
        0).map (fun j => j.status) = some JobStatus.aborted) := by
  decide

/-- C3 (amended): the concurrency slot of a running job is released when the
executor's promise settles — at that moment `processingJobs` is decremented
and the admission loop re-runs — including when the job was already
cancelled during execution, whose late settlement is swallowed without a new
event.  Cancellation itself (by id, timer, external signal or shutdown)
leaves `processingJobs` unchanged. -/
theorem c3_slot_release_on_settlement (s : QueueState I O) (id : Nat)
    (j : Job I O) (hfind : findJob s id = some j) (hst : j.started = true)
    (hse : j.executorSettled = false) (hp : j.status = JobStatus.aborted) :
    (∀ res : Except JSVal O,
      settleExec s id res
        = run ({ updateJob s id markExecutorSettled with
            processingJobs := s.processingJobs - 1 } : QueueState I O) ∧
      (settleExec s id res).events = s.events) ∧
    (∀ id', (abortJobOp s id').processingJobs = s.processingJobs) ∧
    (∀ id', (fireTimeoutOp s id').processingJobs = s.processingJobs) ∧
    (∀ id', (fireExternalOp s id').processingJobs = s.processingJobs) ∧
    (shutdownOp s).processingJobs = s.processingJobs := by
  have hrun : (j.started && !j.executorSettled) = true := by
    rw [hst, hse]
    rfl
  have hterm : j.status ≠ JobStatus.pending := by
    rw [hp]
    intro hcon
    cases hcon
  refine ⟨?_, fun id' => (cancelFrame_abortJobOp s id').processing,
    fun id' => (cancelFrame_fireTimeoutOp s id').processing,
    fun id' => (cancelFrame_fireExternalOp s id').processing,
    (cancelFrame_shutdownOp s).processing⟩
  intro res
  cases res with
  | ok o =>
    rw [settleExec_ok_eq hfind hrun, jobResolve_eq_terminal hfind hterm]
    refine ⟨rfl, ?_⟩
    rw [run_events]
    rfl
  | error e =>
    rw [settleExec_error_eq hfind hrun, jobReject_eq_terminal hfind hterm]
    refine ⟨rfl, ?_⟩
    rw [run_events]
    rfl

theorem c3_slot_release_on_settlement_witness :
    ∃ s : QueueState Unit Unit, ∃ j : Job Unit Unit,
      findJob s 0 = some j ∧ j.started = true ∧ j.executorSettled = false ∧
      j.status = JobStatus.aborted ∧
      (settleExec s 0 (Except.ok ())
          = run ({ updateJob s 0 markExecutorSettled with
              processingJobs := s.processingJobs - 1 } : QueueState Unit Unit) ∧
        (settleExec s 0 (Except.ok ())).events = s.events) := by
  refine ⟨abortJobOp (runSteps (initQueue "q" 1 : QueueState Unit Unit)
      [QStep.processStep () 0 false, QStep.processStep () 0 false]) 0,
    { id := 0, data := (), status := JobStatus.aborted, jobAborted := true,
      timer := false, timeoutSeconds := 0, abortJobListener := false,
      queueAbortGen := none, externalListener := false, jobIndex := none,
      outcome := Outcome.rejected (JSError.mk "abort"), started := true,
      executorSettled := false },
    by decide, by decide, by decide, by decide, ?_⟩
  exact (c3_slot_release_on_settlement
    (abortJobOp (runSteps (initQueue "q" 1 : QueueState Unit Unit)
      [QStep.processStep () 0 false, QStep.processStep () 0 false]) 0) 0
    { id := 0, data := (), status := JobStatus.aborted, jobAborted := true,
      timer := false, timeoutSeconds := 0, abortJobListener := false,
      queueAbortGen := none, externalListener := false, jobIndex := none,
      outcome := Outcome.rejected (JSError.mk "abort"), started := true,
      executorSettled := false }
    (by decide) (by decide) (by decide) (by decide)).1 (Except.ok ())


/-- Projection transported intact through the admission loop: identity,
status and outcome are never touched by `run`/`startJob`. -/
theorem run_findJob_view (s : QueueState I O) (id : Nat) :
    (findJob (run s) id).map (fun j => (j.id, j.status, j.outcome))
      = (findJob s id).map (fun j => (j.id, j.status, j.outcome)) :=
  findJob_map_eq (fun j => (j.id, j.status, j.outcome)) (fun pr => pr.1)
    (fun j => rfl)
    (run_jobs_map (fun j => (j.id, j.status, j.outcome)) (fun j => rfl) s) id

/-- C9: an executor failure is always captured.  If the job is still pending,
the thrown value — wrapped into an `Error` when it was not one — surfaces
exactly as the rejection of the job's outcome together with the one
`job-processed` event carrying that error; nothing else of the trace changes.
If the job was already cancelled, the late failure is swallowed silently:
its status and outcome stay exactly as cancellation left them and no event
is emitted. -/
theorem c9_executor_failure_captured (s : QueueState I O) (id : Nat)
    (j : Job I O) (hfind : findJob s id = some j) (hst : j.started = true)
    (hse : j.executorSettled = false) :
    (∀ e : JSError, wrapError (JSVal.jsError e) = e) ∧
    (∀ m : String, wrapError (JSVal.jsOther m) = JSError.mk m) ∧
    (∀ err : JSVal,
      (j.status = JobStatus.pending →
        (findJob (settleExec s id (Except.error err)) id).map
            (fun j' => (j'.id, j'.status, j'.outcome))
          = some (id, JobStatus.processed, Outcome.rejected (wrapError err)) ∧
        (settleExec s id (Except.error err)).events
          = s.events ++ [QEvent.jobProcessed (id, j.data)
              (ProcStatus.failed (wrapError err)) s.queue.length]) ∧
      (j.status = JobStatus.aborted →
        (findJob (settleExec s id (Except.error err)) id).map
            (fun j' => (j'.id, j'.status, j'.outcome))
          = some (id, j.status, j.outcome) ∧
        (settleExec s id (Except.error err)).events = s.events)) := by
  have hrun : (j.started && !j.executorSettled) = true := by
    rw [hst, hse]
    rfl
  refine ⟨fun e => rfl, fun m => rfl, ?_⟩
  intro err
  constructor
  · intro hp
    rw [settleExec_error_eq hfind hrun]
    have hfr : findJob (jobReject s id err) id
        = some (rejectUpdate s.generation (wrapError err) j) := by
      rw [jobReject_eq_pending hfind hp, findJob_emit]
      exact findJob_updateJob_self hfind _ (fun j' => rfl)
    constructor
    · rw [run_findJob_view]
      have : findJob ({ updateJob (jobReject s id err) id markExecutorSettled with
          processingJobs := (jobReject s id err).processingJobs - 1 } : QueueState I O) id
          = some (markExecutorSettled (rejectUpdate s.generation (wrapError err) j)) :=
        findJob_updateJob_self hfr markExecutorSettled (fun j' => rfl)
      rw [this]
      simp [markExecutorSettled, rejectUpdate, cleanupJob, findJob_id hfind]
    · rw [run_events]
      show (jobReject s id err).events = _
      rw [jobReject_eq_pending hfind hp]
      rfl
  · intro hp
    have hterm : j.status ≠ JobStatus.pending := by
      rw [hp]
      intro hcon
      cases hcon
    rw [settleExec_error_eq hfind hrun, jobReject_eq_terminal hfind hterm]
    constructor
    · rw [run_findJob_view]
      have : findJob ({ updateJob s id markExecutorSettled with
          processingJobs := s.processingJobs - 1 } : QueueState I O) id
          = some (markExecutorSettled j) :=
        findJob_updateJob_self hfind markExecutorSettled (fun j' => rfl)
      rw [this]
      simp [markExecutorSettled, findJob_id hfind]
    · rw [run_events]
      rfl

theorem c9_executor_failure_captured_witness :
    ∃ s : QueueState Unit Unit, ∃ j : Job Unit Unit,
      findJob s 0 = some j ∧ j.started = true ∧ j.executorSettled = false ∧
      (j.status = JobStatus.pending →
        (settleExec s 0 (Except.error (JSVal.jsOther "boom"))).events
          = s.events ++ [QEvent.jobProcessed (0, ())
              (ProcStatus.failed (wrapError (JSVal.jsOther "boom")))
              s.queue.length]) := by
  refine ⟨runSteps (initQueue "q" 1 : QueueState Unit Unit)
      [QStep.processStep () 0 false],
    { id := 0, data := (), status := JobStatus.pending, jobAborted := false,
      timer := false, timeoutSeconds := 0, abortJobListener := true,
      queueAbortGen := some 0, externalListener := false, jobIndex := some true,
      outcome := Outcome.unsettled, started := true, executorSettled := false },
    by decide, by decide, by decide, ?_⟩
  intro hp
  exact (((c9_executor_failure_captured
    (runSteps (initQueue "q" 1 : QueueState Unit Unit)
      [QStep.processStep () 0 false]) 0
    { id := 0, data := (), status := JobStatus.pending, jobAborted := false,
      timer := false, timeoutSeconds := 0, abortJobListener := true,
      queueAbortGen := some 0, externalListener := false, jobIndex := some true,
      outcome := Outcome.unsettled, started := true, executorSettled := false }
    (by decide) (by decide) (by decide)).2.2
      (JSVal.jsOther "boom")).1 hp).2

/-- C10: cancelling a pending job does not remove its backlog entry: the
`queue` array is untouched by every cancellation entry point, so the
`length` getter — and the backlog-length argument of the `job-cancelled`
event, taken while the entry is still present — still count the
already-cancelled job.  The entry disappears exactly when the admission
loop later pops (and skips) it. -/
theorem c10_cancelled_entry_stays_in_backlog (s : QueueState I O) (id : Nat)
    (j : Job I O) (hfind : findJob s id = some j)
    (hp : j.status = JobStatus.pending) (hmem : id ∈ s.queue) :
    (onTimeoutOrAbort s id).queue = s.queue ∧
    id ∈ (onTimeoutOrAbort s id).queue ∧
    (onTimeoutOrAbort s id).queue.length = s.queue.length ∧
    (onTimeoutOrAbort s id).events = s.events
      ++ [QEvent.jobCancelled (id, j.data)
          (if j.jobAborted then CancelReason.abort else CancelReason.timeout)
          s.queue.length] ∧
    (∀ id', (abortJobOp s id').queue = s.queue) ∧
    (∀ id', (fireTimeoutOp s id').queue = s.queue) ∧
    (∀ id', (fireExternalOp s id').queue = s.queue) ∧
    (shutdownOp s).queue = s.queue ∧
    (∀ (s₂ : QueueState I O) (rest : List Nat) (j₂ : Job I O),
      s₂.queue = id :: rest → findJob s₂ id = some j₂ →
      j₂.status = JobStatus.aborted →
      s₂.processingJobs < (s₂.concurrency : Int) →
      run s₂ = run ({ s₂ with queue := rest } : QueueState I O)) := by
  have hq := (cancelFrame_onTimeoutOrAbort s id).queue
  refine ⟨hq, by rw [hq]; exact hmem, by rw [hq], ?_,
    fun id' => (cancelFrame_abortJobOp s id').queue,
    fun id' => (cancelFrame_fireTimeoutOp s id').queue,
    fun id' => (cancelFrame_fireExternalOp s id').queue,
    (cancelFrame_shutdownOp s).queue, ?_⟩
  · rw [onTimeoutOrAbort_eq_pending hfind hp]
    rfl
  · intro s₂ rest j₂ hq₂ hfind₂ hab₂ hlt₂
    exact run_eq_skip s₂ hlt₂ id rest hq₂ j₂ hfind₂ hab₂

theorem c10_cancelled_entry_stays_in_backlog_witness :
    ∃ s : QueueState Unit Unit, ∃ j : Job Unit Unit,
      findJob s 1 = some j ∧ j.status = JobStatus.pending ∧ 1 ∈ s.queue ∧
      ((onTimeoutOrAbort s 1).queue = s.queue ∧
        1 ∈ (onTimeoutOrAbort s 1).queue) := by
  refine ⟨runSteps (initQueue "q" 1 : QueueState Unit Unit)
      [QStep.processStep () 0 false, QStep.processStep () 0 false],
    { id := 1, data := (), status := JobStatus.pending, jobAborted := false,
      timer := false, timeoutSeconds := 0, abortJobListener := true,
      queueAbortGen := some 0, externalListener := false, jobIndex := some false,
      outcome := Outcome.unsettled, started := false, executorSettled := false },
    by decide, by decide, by decide, ?_⟩
  have h := c10_cancelled_entry_stays_in_backlog
    (runSteps (initQueue "q" 1 : QueueState Unit Unit)
      [QStep.processStep () 0 false, QStep.processStep () 0 false]) 1
    { id := 1, data := (), status := JobStatus.pending, jobAborted := false,
      timer := false, timeoutSeconds := 0, abortJobListener := true,
      queueAbortGen := some 0, externalListener := false, jobIndex := some false,
      outcome := Outcome.unsettled, started := false, executorSettled := false }
    (by decide) (by decide) (by decide)
  exact ⟨h.1, h.2.1⟩


/-! ### Looking up the freshly pushed job -/

theorem findJob_pushed (s : QueueState I O) (data : I) (t : Int) (sig : Bool)
    (hfresh : ∀ j ∈ s.jobs, j.id < s.nextId) :
    findJob ({ s with
                jobs := s.jobs ++ [newJob s data t sig],
                queue := s.queue ++ [s.nextId],
                nextId := s.nextId + 1 } : QueueState I O)
      s.nextId = some (newJob s data t sig) := by
  show (s.jobs ++ [newJob s data t sig]).find? (fun j => j.id = s.nextId)
    = some (newJob s data t sig)
  rw [List.find?_append]
  have h1 : s.jobs.find? (fun j => j.id = s.nextId) = none := by
    rw [List.find?_eq_none]
    intro j hj
    simp [Nat.ne_of_lt (hfresh j hj)]
  rw [h1]
  simp [newJob]

/-- The view of the job a `process` call creates, transported through the
admission loop it triggers. -/
theorem process_new_job_view (s : QueueState I O) (data : I) (t : Int)
    (sig : Bool) (hfresh : ∀ j ∈ s.jobs, j.id < s.nextId) {β : Type}
    (f : Job I O → β) (idOf : β → Nat) (hidOf : ∀ j, idOf (f j) = j.id)
    (hf : ∀ j, f (startUpdate j) = f j) :
    (findJob (process s data t sig) s.nextId).map f
      = some (f (newJob s data t sig)) := by
  rw [process_eq]
  rw [findJob_map_eq f idOf hidOf (run_jobs_map f hf _) s.nextId]
  rw [findJob_emit, findJob_pushed s data t sig hfresh]
  rfl

/-- C6: a submission arms its deadline timer exactly when `timeoutSeconds`
is positive (zero or negative arms nothing), the timer belongs to the
submission itself — it exists before the job ever starts — and when it fires
on a still-pending job (started or not, so also while the job is still
waiting for a slot) the job is cancelled with reason `timeout`: outcome
rejected with the timeout error and a `job-cancelled` event with reason
`timeout`.  A job without an armed timer can never experience a timer
firing. -/
theorem c6_timeout_semantics (s : QueueState I O) :
    (∀ (data : I) (t : Int) (sig : Bool),
      (∀ j ∈ s.jobs, j.id < s.nextId) →
      (findJob (process s data t sig) s.nextId).map (fun j => (j.id, j.timer))
        = some (s.nextId, decide (t > 0))) ∧
    (∀ (id : Nat) (j : Job I O), findJob s id = some j → j.timer = true →
      j.status = JobStatus.pending → j.jobAborted = false →
      ((findJob (fireTimeoutOp s id) id).map
          (fun j' => (j'.status, j'.started, j'.outcome))
        = some (JobStatus.aborted, j.started,
            Outcome.rejected (JSError.mk "timeout"))) ∧
      (fireTimeoutOp s id).events
        = s.events ++ [QEvent.jobCancelled (id, j.data) CancelReason.timeout
            s.queue.length]) ∧
    (∀ (id : Nat) (j : Job I O), findJob s id = some j → j.timer = false →
      fireTimeoutOp s id = s) := by
  refine ⟨?_, ?_, ?_⟩
  · intro data t sig hfresh
    exact process_new_job_view s data t sig hfresh
      (fun j => (j.id, j.timer)) (fun pr => pr.1) (fun j => rfl) (fun j => rfl)
  · intro id j hfind ht hp hab
    rw [fireTimeoutOp_eq_armed hfind ht, onTimeoutOrAbort_eq_pending hfind hp]
    constructor
    · rw [findJob_emit,
        findJob_updateJob_self hfind (cancelUpdate s.generation
          (if j.jobAborted then CancelReason.abort else CancelReason.timeout))
          (fun j' => rfl)]
      simp [cancelUpdate, cleanupJob, hab, CancelReason.str]
    · simp [hab, emit, updateJob]
  · intro id j hfind ht
    exact fireTimeoutOp_eq_noTimer hfind ht

theorem c6_timeout_semantics_witness :
    ∃ s : QueueState Unit Unit, ∃ j : Job Unit Unit,
      findJob s 1 = some j ∧ j.timer = true ∧ j.status = JobStatus.pending ∧
      j.jobAborted = false ∧ j.started = false ∧
      ((findJob (process s () 5 false) s.nextId).map (fun j' => (j'.id, j'.timer))
          = some (s.nextId, decide ((5 : Int) > 0))) ∧
      ((findJob (fireTimeoutOp s 1) 1).map
          (fun j' => (j'.status, j'.started, j'.outcome))
        = some (JobStatus.aborted, j.started,
            Outcome.rejected (JSError.mk "timeout"))) := by
  refine ⟨runSteps (initQueue "q" 1 : QueueState Unit Unit)
      [QStep.processStep () 0 false, QStep.processStep () 7 false],
    { id := 1, data := (), status := JobStatus.pending, jobAborted := false,
      timer := true, timeoutSeconds := 7, abortJobListener := true,
      queueAbortGen := some 0, externalListener := false, jobIndex := some false,
      outcome := Outcome.unsettled, started := false, executorSettled := false },
    by decide, by decide, by decide, by decide, by decide, ?_, ?_⟩
  · exact (c6_timeout_semantics (runSteps (initQueue "q" 1 : QueueState Unit Unit)
      [QStep.processStep () 0 false, QStep.processStep () 7 false])).1
      () 5 false (by decide)
  · exact ((c6_timeout_semantics (runSteps (initQueue "q" 1 : QueueState Unit Unit)
      [QStep.processStep () 0 false, QStep.processStep () 7 false])).2.1
      1 { id := 1, data := (), status := JobStatus.pending,
          jobAborted := false, timer := true, timeoutSeconds := 7,
          abortJobListener := true, queueAbortGen := some 0,
          externalListener := false, jobIndex := some false,
          outcome := Outcome.unsettled, started := false,
          executorSettled := false }
      (by decide) (by decide) (by decide) (by decide)).1


/-! ### A job cancelled while pending stays cancelled and never starts -/

/-- The job with this id is in `aborted` status, was never handed to the
executor, and its outcome is the given rejection. -/
def cancelledNeverStarts (s : QueueState I O) (id : Nat) (e : JSError) : Prop :=
  (findJob s id).map (fun j => (j.status, j.started, j.outcome))
    = some (JobStatus.aborted, false, Outcome.rejected e)

theorem cns_elim {s : QueueState I O} {id : Nat} {e : JSError}
    (h : cancelledNeverStarts s id e) :
    ∃ j, findJob s id = some j ∧ j.status = JobStatus.aborted ∧
      j.started = false ∧ j.outcome = Outcome.rejected e := by
  unfold cancelledNeverStarts at h
  cases hf : findJob s id with
  | none => rw [hf] at h; cases h
  | some j =>
    rw [hf] at h
    have h2 : (j.status, j.started, j.outcome)
        = (JobStatus.aborted, false, Outcome.rejected e) := Option.some.inj h
    exact ⟨j, rfl, congrArg (fun p => p.1) h2,
      congrArg (fun p => p.2.1) h2, congrArg (fun p => p.2.2) h2⟩

theorem cns_updateJob_ne {s : QueueState I O} {id : Nat} {e : JSError}
    (h : cancelledNeverStarts s id e) (id' : Nat) (hne : id ≠ id')
    (g : Job I O → Job I O) (hg : ∀ j', (g j').id = j'.id) :
    cancelledNeverStarts (updateJob s id' g) id e := by
  unfold cancelledNeverStarts at h ⊢
  rw [findJob_updateJob_ne id hne g hg]
  exact h

theorem cns_updateJob_view {s : QueueState I O} {id : Nat} {e : JSError}
    (h : cancelledNeverStarts s id e) (g : Job I O → Job I O)
    (hg : ∀ j', (g j').id = j'.id)
    (hgv : ∀ j', ((g j').status, (g j').started, (g j').outcome)
      = (j'.status, j'.started, j'.outcome)) :
    cancelledNeverStarts (updateJob s id g) id e := by
  obtain ⟨j, hfind, h1, h2, h3⟩ := cns_elim h
  unfold cancelledNeverStarts
  rw [findJob_updateJob_self hfind g hg]
  show some ((g j).status, (g j).started, (g j).outcome) = _
  rw [hgv j, h1, h2, h3]

theorem cns_updateJob_any {s : QueueState I O} {id : Nat} {e : JSError}
    (h : cancelledNeverStarts s id e) (id' : Nat) (g : Job I O → Job I O)
    (hg : ∀ j', (g j').id = j'.id)
    (hgv : ∀ j', ((g j').status, (g j').started, (g j').outcome)
      = (j'.status, j'.started, j'.outcome)) :
    cancelledNeverStarts (updateJob s id' g) id e := by
  by_cases hid : id = id'
  · rw [← hid]
    exact cns_updateJob_view h g hg hgv
  · exact cns_updateJob_ne h id' hid g hg

theorem cns_onTimeoutOrAbort {s : QueueState I O} {id : Nat} {e : JSError}
    (h : cancelledNeverStarts s id e) (id' : Nat) :
    cancelledNeverStarts (onTimeoutOrAbort s id') id e := by
  by_cases hid : id = id'
  · obtain ⟨j, hfind, h1, h2, h3⟩ := cns_elim h
    rw [← hid]
    rw [onTimeoutOrAbort_eq_terminal hfind (by rw [h1]; intro hc; cases hc)]
    exact h
  · cases hf : findJob s id' with
    | none => rwa [onTimeoutOrAbort_eq_none hf]
    | some j' =>
      by_cases hp : j'.status = JobStatus.pending
      · rw [onTimeoutOrAbort_eq_pending hf hp]
        exact cns_updateJob_ne h id' hid _ (fun j'' => rfl)
      · rwa [onTimeoutOrAbort_eq_terminal hf hp]

theorem cns_fireJobAbort {s : QueueState I O} {id : Nat} {e : JSError}
    (h : cancelledNeverStarts s id e) (id' : Nat) :
    cancelledNeverStarts (fireJobAbort s id') id e := by
  cases hf : findJob s id' with
  | none => rwa [fireJobAbort_eq_none hf]
  | some j' =>
    cases hab : j'.jobAborted with
    | true => rwa [fireJobAbort_eq_already hf hab]
    | false =>
      rw [fireJobAbort_eq_fire hf hab]
      exact cns_onTimeoutOrAbort
        (cns_updateJob_any h id' markAborted (fun j'' => rfl) (fun j'' => rfl)) id'

theorem cns_abortJobOp {s : QueueState I O} {id : Nat} {e : JSError}
    (h : cancelledNeverStarts s id e) (id' : Nat) :
    cancelledNeverStarts (abortJobOp s id') id e := by
  cases hf : findJob s id' with
  | none => rwa [abortJobOp_eq_none hf]
  | some j' =>
    cases hl : j'.abortJobListener with
    | true =>
      rw [abortJobOp_eq_listener hf hl]
      exact cns_fireJobAbort
        (show cancelledNeverStarts (emit s (QEvent.abortJobEvt id')) id e from h)
        id'
    | false => rwa [abortJobOp_eq_noListener hf hl]

theorem cns_fireTimeoutOp {s : QueueState I O} {id : Nat} {e : JSError}
    (h : cancelledNeverStarts s id e) (id' : Nat) :
    cancelledNeverStarts (fireTimeoutOp s id') id e := by
  cases hf : findJob s id' with
  | none => rwa [fireTimeoutOp_eq_none hf]
  | some j' =>
    cases ht : j'.timer with
    | true =>
      rw [fireTimeoutOp_eq_armed hf ht]
      exact cns_onTimeoutOrAbort h id'
    | false => rwa [fireTimeoutOp_eq_noTimer hf ht]

theorem cns_fireExternalOp {s : QueueState I O} {id : Nat} {e : JSError}
    (h : cancelledNeverStarts s id e) (id' : Nat) :
    cancelledNeverStarts (fireExternalOp s id') id e := by
  cases hf : findJob s id' with
  | none => rwa [fireExternalOp_eq_none hf]
  | some j' =>
    cases hl : j'.externalListener with
    | true =>
      rw [fireExternalOp_eq_listener hf hl]
      exact cns_fireJobAbort h id'
    | false => rwa [fireExternalOp_eq_noListener hf hl]

theorem cns_shutdownOp {s : QueueState I O} {id : Nat} {e : JSError}
    (h : cancelledNeverStarts s id e) :
    cancelledNeverStarts (shutdownOp s) id e := by
  unfold shutdownOp
  have hfold : ∀ (ids : List Nat) (s₀ : QueueState I O),
      cancelledNeverStarts s₀ id e →
      cancelledNeverStarts (ids.foldl fireJobAbort s₀) id e := by
    intro ids
    induction ids with
    | nil => exact fun s₀ h₀ => h₀
    | cons a t ih =>
      intro s₀ h₀
      exact ih (fireJobAbort s₀ a) (cns_fireJobAbort h₀ a)
  exact hfold _ s h

theorem cns_run {s : QueueState I O} {id : Nat} {e : JSError} :
    cancelledNeverStarts s id e → cancelledNeverStarts (run s) id e := by
  induction s using run_rec with
  | case1 s hlt hq =>
    intro h
    rwa [run_eq_nil s hq]
  | case2 s hlt id₀ rest hq hfind ih =>
    intro h
    rw [run_eq_cons s hlt id₀ rest hq, hfind]
    exact ih h
  | case3 s hlt id₀ rest hq j₀ hfind hab ih =>
    intro h
    rw [run_eq_skip s hlt id₀ rest hq j₀ hfind hab]
    exact ih h
  | case4 s hlt id₀ rest hq j₀ hfind hab ih =>
    intro h
    rw [run_eq_start s hlt id₀ rest hq j₀ hfind hab]
    apply ih
    have hne : id ≠ id₀ := by
      intro hc
      obtain ⟨j, hfind', h1, _, _⟩ := cns_elim h
      rw [← hc] at hfind
      rw [hfind'] at hfind
      cases hfind
      exact hab h1
    show cancelledNeverStarts
      ({ updateJob ({ s with queue := rest } : QueueState I O) id₀ startUpdate with
        processingJobs := s.processingJobs + 1,
        startedOrder := s.startedOrder ++ [id₀] } : QueueState I O) id e
    exact cns_updateJob_ne h id₀ hne startUpdate (fun j'' => rfl)
  | case5 s hlt =>
    intro h
    rwa [run_eq_stop s hlt]

theorem cns_jobResolve {s : QueueState I O} {id : Nat} {e : JSError}
    (h : cancelledNeverStarts s id e) (id' : Nat) (hne : id ≠ id') (o : O) :
    cancelledNeverStarts (jobResolve s id' o) id e := by
  cases hf : findJob s id' with
  | none => rwa [jobResolve_eq_none hf]
  | some j' =>
    by_cases hp : j'.status = JobStatus.pending
    · rw [jobResolve_eq_pending hf hp]
      exact cns_updateJob_ne h id' hne _ (fun j'' => rfl)
    · rwa [jobResolve_eq_terminal hf hp]

theorem cns_jobReject {s : QueueState I O} {id : Nat} {e : JSError}
    (h : cancelledNeverStarts s id e) (id' : Nat) (hne : id ≠ id')
    (err : JSVal) : cancelledNeverStarts (jobReject s id' err) id e := by
  cases hf : findJob s id' with
  | none => rwa [jobReject_eq_none hf]
  | some j' =>
    by_cases hp : j'.status = JobStatus.pending
    · rw [jobReject_eq_pending hf hp]
      exact cns_updateJob_ne h id' hne _ (fun j'' => rfl)
    · rwa [jobReject_eq_terminal hf hp]

theorem cns_settleExec {s : QueueState I O} {id : Nat} {e : JSError}
    (h : cancelledNeverStarts s id e) (id' : Nat) (res : Except JSVal O) :
    cancelledNeverStarts (settleExec s id' res) id e := by
  cases hf : findJob s id' with
  | none => rwa [settleExec_eq_none hf]
  | some j' =>
    cases hrun : (j'.started && !j'.executorSettled) with
    | false => rwa [settleExec_eq_notRunning hf hrun]
    | true =>
      have hne : id ≠ id' := by
        intro hc
        obtain ⟨j, hfind', _, h2, _⟩ := cns_elim h
        rw [← hc] at hf
        rw [hfind'] at hf
        cases hf
        rw [h2] at hrun
        cases hrun
      cases res with
      | ok o =>
        rw [settleExec_ok_eq hf hrun]
        apply cns_run
        show cancelledNeverStarts
          ({ updateJob (jobResolve s id' o) id' markExecutorSettled with
            processingJobs := (jobResolve s id' o).processingJobs - 1 } :
            QueueState I O) id e
        exact cns_updateJob_ne (cns_jobResolve h id' hne o) id' hne
          markExecutorSettled (fun j'' => rfl)
      | error err =>
        rw [settleExec_error_eq hf hrun]
        apply cns_run
        show cancelledNeverStarts
          ({ updateJob (jobReject s id' err) id' markExecutorSettled with
            processingJobs := (jobReject s id' err).processingJobs - 1 } :
            QueueState I O) id e
        exact cns_updateJob_ne (cns_jobReject h id' hne err) id' hne
          markExecutorSettled (fun j'' => rfl)

theorem cns_process {s : QueueState I O} {id : Nat} {e : JSError}
    (h : cancelledNeverStarts s id e) (data : I) (t : Int) (sig : Bool) :
    cancelledNeverStarts (process s data t sig) id e := by
  obtain ⟨j, hfind, h1, h2, h3⟩ := cns_elim h
  rw [process_eq]
  apply cns_run
  show cancelledNeverStarts (emit ({ s with
      jobs := s.jobs ++ [newJob s data t sig],
      queue := s.queue ++ [s.nextId],
      nextId := s.nextId + 1 } : QueueState I O) _) id e
  unfold cancelledNeverStarts
  have hfind' : (s.jobs ++ [newJob s data t sig]).find? (fun j' => j'.id = id)
      = some j := by
    rw [List.find?_append]
    rw [show s.jobs.find? (fun j' => j'.id = id) = some j from hfind]
    rfl
  rw [show findJob (emit ({ s with
      jobs := s.jobs ++ [newJob s data t sig],
      queue := s.queue ++ [s.nextId],
      nextId := s.nextId + 1 } : QueueState I O)
      (QEvent.jobAdded (s.nextId, data) (s.queue ++ [s.nextId]).length)) id
      = some j from hfind']
  simp [h1, h2, h3]

theorem cns_step {s : QueueState I O} {id : Nat} {e : JSError}
    (h : cancelledNeverStarts s id e) (ev : QStep I O) :
    cancelledNeverStarts (step s ev) id e := by
  cases ev with
  | processStep d t sig => exact cns_process h d t sig
  | abortJobStep id' => exact cns_abortJobOp h id'
  | shutdownStep => exact cns_shutdownOp h
  | timeoutStep id' => exact cns_fireTimeoutOp h id'
  | externalStep id' => exact cns_fireExternalOp h id'
  | settleStep id' res => exact cns_settleExec h id' res

theorem cns_runSteps (l : List (QStep I O)) :
    ∀ {s : QueueState I O} {id : Nat} {e : JSError},
      cancelledNeverStarts s id e →
      cancelledNeverStarts (runSteps s l) id e := by
  induction l with
  | nil => exact fun h => h
  | cons ev t ih =>
    intro s id e h
    exact ih (cns_step h ev)

/-- C5: a job cancelled while still pending — whether by id, shutdown,
external signal (all reaching `fireJobAbort`) or by its deadline timer — is
rejected with reason `abort` (resp. `timeout`), consumes no concurrency slot
(the slot counter and start history are untouched by the cancellation), and
the executor is never invoked for it: in every later state it is still
`aborted`, still never-started, with the same rejected outcome. -/
theorem c5_cancelled_pending_never_runs (s : QueueState I O) (id : Nat)
    (j : Job I O) (hfind : findJob s id = some j)
    (hp : j.status = JobStatus.pending) (hst : j.started = false)
    (hab : j.jobAborted = false) :
    cancelledNeverStarts (fireJobAbort s id) id (JSError.mk "abort") ∧
    cancelledNeverStarts (onTimeoutOrAbort s id) id (JSError.mk "timeout") ∧
    (fireJobAbort s id).processingJobs = s.processingJobs ∧
    (fireJobAbort s id).startedOrder = s.startedOrder ∧
    (∀ l : List (QStep I O),
      cancelledNeverStarts (runSteps (fireJobAbort s id) l) id
        (JSError.mk "abort")) := by
  have habort : cancelledNeverStarts (fireJobAbort s id) id (JSError.mk "abort") := by
    rw [fireJobAbort_eq_fire hfind hab]
    have hfind1 : findJob (updateJob s id markAborted) id
        = some (markAborted j) :=
      findJob_updateJob_self hfind markAborted (fun j' => rfl)
    have hp1 : (markAborted j).status = JobStatus.pending := hp
    rw [onTimeoutOrAbort_eq_pending hfind1 hp1]
    unfold cancelledNeverStarts
    rw [findJob_emit, findJob_updateJob_self hfind1
      (cancelUpdate (updateJob s id markAborted).generation
        (if (markAborted j).jobAborted then CancelReason.abort
          else CancelReason.timeout)) (fun j' => rfl)]
    simp [cancelUpdate, cleanupJob, markAborted, hst, CancelReason.str]
  refine ⟨habort, ?_, (cancelFrame_fireJobAbort s id).processing,
    (cancelFrame_fireJobAbort s id).startedOrder,
    fun l => cns_runSteps l habort⟩
  rw [onTimeoutOrAbort_eq_pending hfind hp]
  unfold cancelledNeverStarts
  rw [findJob_emit, findJob_updateJob_self hfind
    (cancelUpdate s.generation
      (if j.jobAborted then CancelReason.abort else CancelReason.timeout))
    (fun j' => rfl)]
  simp [cancelUpdate, cleanupJob, hab, hst, CancelReason.str]

theorem c5_cancelled_pending_never_runs_witness :
    ∃ s : QueueState Unit Unit, ∃ j : Job Unit Unit,
      findJob s 1 = some j ∧ j.status = JobStatus.pending ∧
      j.started = false ∧ j.jobAborted = false ∧
      (cancelledNeverStarts (fireJobAbort s 1) 1 (JSError.mk "abort") ∧
        cancelledNeverStarts
          (runSteps (fireJobAbort s 1) [QStep.settleStep 0 (Except.ok ())]) 1
          (JSError.mk "abort")) := by
  refine ⟨runSteps (initQueue "q" 1 : QueueState Unit Unit)
      [QStep.processStep () 0 false, QStep.processStep () 0 false],
    { id := 1, data := (), status := JobStatus.pending, jobAborted := false,
      timer := false, timeoutSeconds := 0, abortJobListener := true,
      queueAbortGen := some 0, externalListener := false, jobIndex := some false,
      outcome := Outcome.unsettled, started := false, executorSettled := false },
    by decide, by decide, by decide, by decide, ?_⟩
  have h := c5_cancelled_pending_never_runs
    (runSteps (initQueue "q" 1 : QueueState Unit Unit)
      [QStep.processStep () 0 false, QStep.processStep () 0 false]) 1
    { id := 1, data := (), status := JobStatus.pending, jobAborted := false,
      timer := false, timeoutSeconds := 0, abortJobListener := true,
      queueAbortGen := some 0, externalListener := false, jobIndex := some false,
      outcome := Outcome.unsettled, started := false, executorSettled := false }
    (by decide) (by decide) (by decide) (by decide)
  exact ⟨h.1, h.2.2.2.2 [QStep.settleStep 0 (Except.ok ())]⟩


/-! ### Shutdown cancels every tracked job -/

theorem onTimeoutOrAbort_findJob_ne (s : QueueState I O) (id' id : Nat)
    (hne : id ≠ id') : findJob (onTimeoutOrAbort s id') id = findJob s id := by
  cases hf : findJob s id' with
  | none => rw [onTimeoutOrAbort_eq_none hf]
  | some j' =>
    by_cases hp : j'.status = JobStatus.pending
    · rw [onTimeoutOrAbort_eq_pending hf hp, findJob_emit]
      exact findJob_updateJob_ne id hne _ (fun j'' => rfl)
    · rw [onTimeoutOrAbort_eq_terminal hf hp]

theorem fireJobAbort_findJob_ne (s : QueueState I O) (id' id : Nat)
    (hne : id ≠ id') : findJob (fireJobAbort s id') id = findJob s id := by
  cases hf : findJob s id' with
  | none => rw [fireJobAbort_eq_none hf]
  | some j' =>
    cases hab : j'.jobAborted with
    | true => rw [fireJobAbort_eq_already hf hab]
    | false =>
      rw [fireJobAbort_eq_fire hf hab, onTimeoutOrAbort_findJob_ne _ id' id hne]
      exact findJob_updateJob_ne id hne markAborted (fun j'' => rfl)

/-- The five job fields the shutdown argument tracks. -/
def abortView (j : Job I O) : JobStatus × Bool × Bool × Outcome O × I :=
  (j.status, j.jobAborted, j.started, j.outcome, j.data)

theorem abortView_elim {s : QueueState I O} {id : Nat}
    {v : JobStatus × Bool × Bool × Outcome O × I}
    (h : (findJob s id).map abortView = some v) :
    ∃ j, findJob s id = some j ∧ abortView j = v := by
  cases hf : findJob s id with
  | none => rw [hf] at h; cases h
  | some j =>
    rw [hf] at h
    exact ⟨j, rfl, Option.some.inj h⟩

/-- Firing a pending job's `abort` cancels it: terminal status, signal
aborted, outcome rejected with reason `abort`, one `job-cancelled` event
carrying the current backlog length. -/
theorem fireJobAbort_cancels_pending {s : QueueState I O} {id : Nat}
    {j : Job I O} (hfind : findJob s id = some j)
    (hp : j.status = JobStatus.pending) (hab : j.jobAborted = false) :
    (findJob (fireJobAbort s id) id).map abortView
      = some (JobStatus.aborted, true, j.started,
          Outcome.rejected (JSError.mk "abort"), j.data) ∧
    (fireJobAbort s id).events
      = s.events ++ [QEvent.jobCancelled (id, j.data) CancelReason.abort
          s.queue.length] := by
  rw [fireJobAbort_eq_fire hfind hab]
  have hfind1 : findJob (updateJob s id markAborted) id = some (markAborted j) :=
    findJob_updateJob_self hfind markAborted (fun j' => rfl)
  have hp1 : (markAborted j).status = JobStatus.pending := hp
  rw [onTimeoutOrAbort_eq_pending hfind1 hp1]
  constructor
  · rw [findJob_emit, findJob_updateJob_self hfind1
      (cancelUpdate (updateJob s id markAborted).generation
        (if (markAborted j).jobAborted then CancelReason.abort
          else CancelReason.timeout)) (fun j' => rfl)]
    simp [abortView, cancelUpdate, cleanupJob, markAborted, CancelReason.str]
  · show (updateJob s id markAborted).events ++ [_] = _
    rfl

/-- Once a job is terminal with its `jobAbort` signal fired, no further
`fireJobAbort` (on any id) changes its view. -/
theorem fireJobAbort_preserves_done {s : QueueState I O} {id : Nat}
    {b : Bool} {o : Outcome O} {d : I}
    (h : (findJob s id).map abortView
      = some (JobStatus.aborted, true, b, o, d)) (id' : Nat) :
    (findJob (fireJobAbort s id') id).map abortView
      = some (JobStatus.aborted, true, b, o, d) := by
  obtain ⟨j, hfind, hview⟩ := abortView_elim h
  by_cases hid : id = id'
  · have hab : j.jobAborted = true := congrArg (fun p => p.2.1) hview
    rw [← hid, fireJobAbort_eq_already hfind hab]
    exact h
  · rw [fireJobAbort_findJob_ne s id' id hid]
    exact h

theorem foldl_fireJobAbort_preserves_done (ids : List Nat) :
    ∀ {s : QueueState I O} {id : Nat} {b : Bool} {o : Outcome O} {d : I},
      (findJob s id).map abortView
          = some (JobStatus.aborted, true, b, o, d) →
      (findJob (ids.foldl fireJobAbort s) id).map abortView
        = some (JobStatus.aborted, true, b, o, d) := by
  induction ids with
  | nil => exact fun h => h
  | cons a t ih =>
    intro s id b o d h
    exact ih (fireJobAbort_preserves_done h a)

/-- Every id in the fired list whose job is still pending gets cancelled
with reason `abort`, and its `job-cancelled` event is in the trace.  (After
its own cancellation the job is never started: `started` stays `false`.) -/
theorem foldl_fireJobAbort_cancels (ids : List Nat) :
    ∀ (s : QueueState I O) (id : Nat) (j : Job I O), id ∈ ids →
      findJob s id = some j → j.status = JobStatus.pending →
      j.jobAborted = false →
      ((findJob (ids.foldl fireJobAbort s) id).map abortView
        = some (JobStatus.aborted, true, j.started,
            Outcome.rejected (JSError.mk "abort"), j.data)) ∧
      QEvent.jobCancelled (id, j.data) CancelReason.abort s.queue.length
        ∈ (ids.foldl fireJobAbort s).events := by
  induction ids with
  | nil =>
    intro s id j hmem
    cases hmem
  | cons a t ih =>
    intro s id j hmem hfind hp hab
    rw [List.foldl_cons]
    by_cases ha : a = id
    · rw [ha]
      obtain ⟨hview, hev⟩ := fireJobAbort_cancels_pending hfind hp hab
      constructor
      · exact foldl_fireJobAbort_preserves_done t hview
      · have hmem0 : QEvent.jobCancelled (id, j.data) CancelReason.abort
            s.queue.length ∈ (fireJobAbort s id).events := by
          rw [hev]
          exact List.mem_append_right _ (List.mem_singleton_self _)
        exact (cancelFrame_foldl_fireJobAbort t (fireJobAbort s id)).eventsPre.subset
          hmem0
    · have hne : id ≠ a := fun hc => ha hc.symm
      have hmem' : id ∈ t := by
        rcases List.mem_cons.mp hmem with hc | hc
        · exact absurd hc.symm ha
        · exact hc
      have hfind' : findJob (fireJobAbort s a) id = some j := by
        rw [fireJobAbort_findJob_ne s a id hne]
        exact hfind
      have hres := ih (fireJobAbort s a) id j hmem' hfind' hp hab
      rw [(cancelFrame_fireJobAbort s a).queue] at hres
      exact hres

/-- C7: `abort()` (shutdown) cancels, with reason `abort`, every job that is
still tracked (status `pending`, covering both queued and running jobs) and
registered on the current shutdown controller; it emits a `job-cancelled`
event for each; it then replaces the shutdown trigger (generation + 1), so
a job submitted afterwards is registered on the fresh trigger, is untouched
by the completed shutdown (still `pending`/unsettled), and the queue keeps
accepting and admitting new work. -/
theorem c7_shutdown_cancels_tracked (s : QueueState I O) (id : Nat)
    (j : Job I O) (hnd : (s.jobs.map Job.id).Nodup)
    (hfresh : ∀ j' ∈ s.jobs, j'.id < s.nextId)
    (hpend : ∀ j' ∈ s.jobs, j'.status = JobStatus.pending →
      j'.queueAbortGen = some s.generation ∧ j'.jobAborted = false)
    (hfind : findJob s id = some j) (hp : j.status = JobStatus.pending) :
    ((findJob (shutdownOp s) id).map abortView
      = some (JobStatus.aborted, true, j.started,
          Outcome.rejected (JSError.mk "abort"), j.data)) ∧
    QEvent.jobCancelled (id, j.data) CancelReason.abort s.queue.length
      ∈ (shutdownOp s).events ∧
    (shutdownOp s).generation = s.generation + 1 ∧
    (∀ (data : I) (t : Int) (sig : Bool),
      (findJob (process (shutdownOp s) data t sig) s.nextId).map
          (fun j' => (j'.id, j'.status, j'.queueAbortGen, j'.outcome))
        = some (s.nextId, JobStatus.pending, some (s.generation + 1),
            Outcome.unsettled)) := by
  have hmemj : j ∈ s.jobs := findJob_mem hfind
  have hjid : j.id = id := findJob_id hfind
  obtain ⟨hgen, hab⟩ := hpend j hmemj hp
  have hmemids : id ∈ (s.jobs.filter
      (fun j' => j'.queueAbortGen = some s.generation)).map Job.id := by
    rw [← hjid]
    exact List.mem_map_of_mem Job.id (List.mem_filter.mpr ⟨hmemj, by simp [hgen]⟩)
  have hcancel := foldl_fireJobAbort_cancels
    ((s.jobs.filter (fun j' => j'.queueAbortGen = some s.generation)).map Job.id)
    s id j hmemids hfind hp hab
  have hsafe : CancelFrame s (shutdownOp s) := cancelFrame_shutdownOp s
  refine ⟨?_, ?_, ?_, ?_⟩
  · show (findJob (({ ((s.jobs.filter
        (fun j' => j'.queueAbortGen = some s.generation)).map Job.id).foldl
          fireJobAbort s with generation := _ } : QueueState I O)) id).map abortView
      = _
    exact hcancel.1
  · exact hcancel.2
  · show (((s.jobs.filter (fun j' => j'.queueAbortGen = some s.generation)).map
        Job.id).foldl fireJobAbort s).generation + 1 = s.generation + 1
    rw [foldl_fireJobAbort_generation]
  · intro data t sig
    have hids : (shutdownOp s).jobs.map Job.id = s.jobs.map Job.id := by
      have h1 := congrArg (List.map Prod.fst) hsafe.jobsSched
      rwa [List.map_map, List.map_map] at h1
    have hfresh' : ∀ j' ∈ (shutdownOp s).jobs, j'.id < (shutdownOp s).nextId := by
      intro j' hj'
      have hmm : j'.id ∈ (shutdownOp s).jobs.map Job.id :=
        List.mem_map_of_mem Job.id hj'
      rw [hids] at hmm
      rcases List.mem_map.mp hmm with ⟨j₀, hj₀, hini⟩
      rw [hsafe.nextId, ← hini]
      exact hfresh j₀ hj₀
    have hview := process_new_job_view (shutdownOp s) data t sig hfresh'
      (fun j' => (j'.id, j'.status, j'.queueAbortGen, j'.outcome))
      (fun pr => pr.1) (fun j' => rfl) (fun j' => rfl)
    rw [hsafe.nextId] at hview
    rw [hview]
    have hgen' : (shutdownOp s).generation = s.generation + 1 := by
      show (((s.jobs.filter (fun j' => j'.queueAbortGen = some s.generation)).map
          Job.id).foldl fireJobAbort s).generation + 1 = s.generation + 1
      rw [foldl_fireJobAbort_generation]
    simp [newJob, hsafe.nextId, hgen']

theorem c7_shutdown_cancels_tracked_witness :
    ∃ s : QueueState Unit Unit, ∃ j : Job Unit Unit,
      (s.jobs.map Job.id).Nodup ∧
      findJob s 1 = some j ∧ j.status = JobStatus.pending ∧
      (((findJob (shutdownOp s) 1).map abortView
          = some (JobStatus.aborted, true, j.started,
              Outcome.rejected (JSError.mk "abort"), ())) ∧
        (shutdownOp s).generation = s.generation + 1) := by
  refine ⟨runSteps (initQueue "q" 1 : QueueState Unit Unit)
      [QStep.processStep () 0 false, QStep.processStep () 0 false],
    { id := 1, data := (), status := JobStatus.pending, jobAborted := false,
      timer := false, timeoutSeconds := 0, abortJobListener := true,
      queueAbortGen := some 0, externalListener := false, jobIndex := some false,
      outcome := Outcome.unsettled, started := false, executorSettled := false },
    by decide, by decide, by decide, ?_⟩
  have h := c7_shutdown_cancels_tracked
    (runSteps (initQueue "q" 1 : QueueState Unit Unit)
      [QStep.processStep () 0 false, QStep.processStep () 0 false]) 1
    { id := 1, data := (), status := JobStatus.pending, jobAborted := false,
      timer := false, timeoutSeconds := 0, abortJobListener := true,
      queueAbortGen := some 0, externalListener := false, jobIndex := some false,
      outcome := Outcome.unsettled, started := false, executorSettled := false }
    (by decide) (by decide) (by decide) (by decide) (by decide)
  exact ⟨h.1, h.2.2.1⟩


/-! ### waitForJob

`waitForJob` suspends on two queue-event listeners and an own timer; its
behaviour is a function of which of those observations arrives first.  The
observations a given `waitForJob` promise can react to are modelled as a
list; the timer observation can occur only when `timeoutMs > 0` (only then
is `setTimeout` armed), which the definition reflects by discarding timer
observations otherwise. -/

/-- An observation a pending `waitForJob` promise can receive: one of the
two terminal events of the queue, or its own deadline timer firing. -/
inductive WaitObs
  | processedEvt (id : Nat)
  | cancelledEvt (id : Nat)
  | waitTimerFire
deriving DecidableEq, Repr

/-- The listener logic: the first `job-processed`/`job-cancelled` event
whose job id matches resolves; the deadline timer rejects with
`Error('Timeout waiting for job')`; `none` means still waiting. -/
def waitLoop (jobId : Nat) : List WaitObs → Option (Except JSError Unit)
  | [] => none
  | WaitObs.processedEvt i :: rest =>
    if i = jobId then some (Except.ok ()) else waitLoop jobId rest
  | WaitObs.cancelledEvt i :: rest =>
    if i = jobId then some (Except.ok ()) else waitLoop jobId rest
  | WaitObs.waitTimerFire :: _ =>
    some (Except.error (JSError.mk "Timeout waiting for job"))

/-- `this.jobStatus[jobId]` (the job-index lookup). -/
def jobStatusOf (s : QueueState I O) (id : Nat) : Option Bool :=
  (findJob s id).bind (fun j => j.jobIndex)

/-- The default of the `timeoutMs` parameter: 3,600,000 ms. -/
def waitForJobDefaultTimeoutMs : Int := 3600000

/-- `waitForJob(jobId, timeoutMs)`: if the id is not tracked in the job
index, return at once; otherwise wait for the first relevant observation.
The timer is armed only when `timeoutMs > 0`. -/
def waitForJob (s : QueueState I O) (jobId : Nat) (timeoutMs : Int)
    (obs : List WaitObs) : Option (Except JSError Unit) :=
  if (jobStatusOf s jobId).isNone then some (Except.ok ())
  else waitLoop jobId
    (if timeoutMs > 0 then obs
      else obs.filter (fun o => !(o = WaitObs.waitTimerFire)))

/-- An observation irrelevant to this wait: any event about another job.
(The timer observation is always relevant once armed.) -/
abbrev irrelevantObs (jobId : Nat) (o : WaitObs) : Prop :=
  o ≠ WaitObs.processedEvt jobId ∧ o ≠ WaitObs.cancelledEvt jobId ∧
    o ≠ WaitObs.waitTimerFire

theorem waitLoop_skips (jobId : Nat) (pre : List WaitObs)
    (hpre : ∀ o ∈ pre, irrelevantObs jobId o) (rest : List WaitObs) :
    waitLoop jobId (pre ++ rest) = waitLoop jobId rest := by
  induction pre with
  | nil => rfl
  | cons a t ih =>
    obtain ⟨h1, h2, h3⟩ := hpre a (List.mem_cons_self a t)
    have ht : ∀ o ∈ t, irrelevantObs jobId o :=
      fun o ho => hpre o (List.mem_cons_of_mem a ho)
    cases a with
    | processedEvt i =>
      have : i ≠ jobId := fun hc => h1 (by rw [hc])
      rw [List.cons_append, waitLoop, if_neg this]
      exact ih ht
    | cancelledEvt i =>
      have : i ≠ jobId := fun hc => h2 (by rw [hc])
      rw [List.cons_append, waitLoop, if_neg this]
      exact ih ht
    | waitTimerFire => exact absurd rfl h3

/-- C8: `awaitJob`.  The default deadline parameter is 3,600,000 ms.  If the
id is not currently tracked in the job index the call returns immediately as
a no-op.  Otherwise, whichever relevant observation comes first decides the
outcome: a `job-processed` or `job-cancelled` event for this job resolves
the wait, and the armed deadline timer (armed exactly when `timeoutMs > 0`)
rejects it with the wait-timeout error. -/
theorem c8_waitForJob (s : QueueState I O) (jobId : Nat) (timeoutMs : Int) :
    waitForJobDefaultTimeoutMs = 3600000 ∧
    ((jobStatusOf s jobId).isNone →
      ∀ obs, waitForJob s jobId timeoutMs obs = some (Except.ok ())) ∧
    ((jobStatusOf s jobId).isSome →
      ∀ pre, (∀ o ∈ pre, irrelevantObs jobId o) →
        (∀ post, waitForJob s jobId timeoutMs
            (pre ++ WaitObs.processedEvt jobId :: post) = some (Except.ok ())) ∧
        (∀ post, waitForJob s jobId timeoutMs
            (pre ++ WaitObs.cancelledEvt jobId :: post) = some (Except.ok ())) ∧
        (timeoutMs > 0 →
          ∀ post, waitForJob s jobId timeoutMs
              (pre ++ WaitObs.waitTimerFire :: post)
            = some (Except.error (JSError.mk "Timeout waiting for job")))) := by
  have htracked : (jobStatusOf s jobId).isSome →
      ¬ (jobStatusOf s jobId).isNone = true := by
    intro hs hn
    rw [Option.isNone_iff_eq_none] at hn
    rw [hn] at hs
    cases hs
  refine ⟨rfl, ?_, ?_⟩
  · intro hnone obs
    unfold waitForJob
    rw [if_pos (by rw [hnone])]
  · intro hsome pre hpre
    have hfiltered : ∀ post : List WaitObs,
        (pre ++ post).filter (fun o => !(o = WaitObs.waitTimerFire))
          = pre.filter (fun o => !(o = WaitObs.waitTimerFire)) ++
            post.filter (fun o => !(o = WaitObs.waitTimerFire)) :=
      fun post => List.filter_append pre post
    have hprefilter : ∀ o ∈ pre.filter (fun o => !(o = WaitObs.waitTimerFire)),
        irrelevantObs jobId o :=
      fun o ho => hpre o (List.mem_of_mem_filter ho)
    refine ⟨?_, ?_, ?_⟩
    · intro post
      unfold waitForJob
      rw [if_neg (htracked hsome)]
      by_cases hpos : timeoutMs > 0
      · rw [if_pos hpos, waitLoop_skips jobId pre hpre]
        rw [waitLoop, if_pos rfl]
      · rw [if_neg hpos, hfiltered]
        rw [waitLoop_skips jobId _ hprefilter]
        rw [show (WaitObs.processedEvt jobId :: post).filter
            (fun o => !(o = WaitObs.waitTimerFire))
          = WaitObs.processedEvt jobId :: post.filter
              (fun o => !(o = WaitObs.waitTimerFire)) from by
            rw [List.filter_cons]
            simp]
        rw [waitLoop, if_pos rfl]
    · intro post
      unfold waitForJob
      rw [if_neg (htracked hsome)]
      by_cases hpos : timeoutMs > 0
      · rw [if_pos hpos, waitLoop_skips jobId pre hpre]
        rw [waitLoop, if_pos rfl]
      · rw [if_neg hpos, hfiltered]
        rw [waitLoop_skips jobId _ hprefilter]
        rw [show (WaitObs.cancelledEvt jobId :: post).filter
            (fun o => !(o = WaitObs.waitTimerFire))
          = WaitObs.cancelledEvt jobId :: post.filter
              (fun o => !(o = WaitObs.waitTimerFire)) from by
            rw [List.filter_cons]
            simp]
        rw [waitLoop, if_pos rfl]
    · intro hpos post
      unfold waitForJob
      rw [if_neg (htracked hsome), if_pos hpos,
        waitLoop_skips jobId pre hpre]
      rw [waitLoop]

theorem c8_waitForJob_witness :
    ∃ s : QueueState Unit Unit,
      (jobStatusOf s 0).isSome ∧ (jobStatusOf s 99).isNone ∧
      (waitForJob s 99 waitForJobDefaultTimeoutMs [] = some (Except.ok ())) ∧
      (waitForJob s 0 waitForJobDefaultTimeoutMs
          [WaitObs.processedEvt 1, WaitObs.processedEvt 0]
        = some (Except.ok ())) ∧
      (waitForJob s 0 waitForJobDefaultTimeoutMs
          [WaitObs.cancelledEvt 1, WaitObs.waitTimerFire, WaitObs.processedEvt 0]
        = some (Except.error (JSError.mk "Timeout waiting for job"))) := by
  refine ⟨runSteps (initQueue "q" 1 : QueueState Unit Unit)
      [QStep.processStep () 0 false, QStep.processStep () 0 false],
    by decide, by decide, ?_, ?_, ?_⟩
  · exact (c8_waitForJob (runSteps (initQueue "q" 1 : QueueState Unit Unit)
      [QStep.processStep () 0 false, QStep.processStep () 0 false]) 99
      waitForJobDefaultTimeoutMs).2.1 (by decide) []
  · exact ((c8_waitForJob (runSteps (initQueue "q" 1 : QueueState Unit Unit)
      [QStep.processStep () 0 false, QStep.processStep () 0 false]) 0
      waitForJobDefaultTimeoutMs).2.2 (by decide) [WaitObs.processedEvt 1]
      (by decide)).1 []
  · exact ((c8_waitForJob (runSteps (initQueue "q" 1 : QueueState Unit Unit)
      [QStep.processStep () 0 false, QStep.processStep () 0 false]) 0
      waitForJobDefaultTimeoutMs).2.2 (by decide)
      [WaitObs.cancelledEvt 1] (by decide)).2.2 (by decide)
      [WaitObs.processedEvt 0]

end MdkFlow
